import Mathlib

/-!
# Verification of the coapium CoAP client against its specification

This file gives a shallow embedding, in Lean 4, of the parts of the
coapium library (a CoAP client, RFC 7252) that the verified claims are
about: the wire codec (`src/coapium/src/codec/...`) and the reliability
processor (`src/coapium/src/protocol/...`).

Conventions of the embedding:
* Rust bytes (`u8`) are `Nat` values below 256; byte strings (`Vec<u8>`,
  `&[u8]`) are `List Nat`.  16-bit arithmetic that wraps (`MessageId`)
  is `Nat` with an explicit `% 65536`.
* `std::time::Duration` together with the `f32` factors multiplied into
  it are modelled as unreduced integer fractions (seconds).  No claim
  depends on the numeric value of a duration; they are carried around
  only because the Rust effect values carry them.
* Fallible Rust functions returning `Result<T, E>` become
  `Except E T`; functions that can panic (`todo!()`, out-of-range
  slicing) return `Option _`, where `none` is the panic.
* `&mut self` methods become functions from the receiver to a pair of
  result and updated receiver.
* Rust struct/enum and method names are kept, camel-cased when Lean
  requires it.  `option::Option` (the CoAP option type) is renamed
  `COption` to avoid clashing with Lean's `Option`.
-/

namespace Coapium

/-- Rust `Vec::swap_remove(i)`: overwrite index `i` with the last
element and pop the last element.  Only called with `i` a valid index. -/
def swapRemove [Inhabited α] (l : List α) (i : Nat) : List α :=
  if i + 1 = l.length then l.dropLast
  else (l.set i (l.getLast?.getD default)).dropLast

/-- Rust `Iterator::position`: index of the first element satisfying
the predicate. -/
def position (p : α → Bool) : List α → Option Nat
  | [] => none
  | x :: xs => if p x then some 0 else (position p xs).map (· + 1)

namespace Codec

/-! ## Primitive codec (src/coapium/src/codec) -/

/-- `version.rs`: only version 1 is supported. -/
inductive Version | v1
deriving DecidableEq, Repr

inductive VersionError | unsupported (value : Nat)
deriving DecidableEq, Repr

/-- `Version::decode`: the version is the top two bits of byte 0. -/
def Version.decode (byte : Nat) : Except VersionError Version :=
  match byte >>> 6 with
  | 1 => .ok .v1
  | unsupported => .error (.unsupported unsupported)

/-- `Version::encode`. -/
def Version.encode : Version → Nat
  | .v1 => 1 <<< 6

/-- `message_type.rs`: the four CoAP message types. -/
inductive MessageType
  | acknowledgement
  | confirmable
  | nonConfirmable
  | reset
deriving DecidableEq, Repr

/-- `MessageType::value`. -/
def MessageType.value : MessageType → Nat
  | .acknowledgement => 2
  | .confirmable => 0
  | .nonConfirmable => 1
  | .reset => 3

/-- `MessageType::decode`: bits 4-5 of byte 0. -/
def MessageType.decode (byte : Nat) : MessageType :=
  match (byte &&& 0x30) >>> 4 with
  | 2 => .acknowledgement
  | 0 => .confirmable
  | 1 => .nonConfirmable
  | _ => .reset

/-- `MessageType::encode`. -/
def MessageType.encode (t : MessageType) : Nat :=
  t.value <<< 4

/-- `token_length.rs`: a token length, valid values `0..=8`. -/
structure TokenLength where
  value : Nat
deriving DecidableEq, Repr

inductive TokenLengthError | outOfRange (value : Nat)
deriving DecidableEq, Repr

/-- `TokenLength::decode`: the low four bits of byte 0. -/
def TokenLength.decode (byte : Nat) : TokenLength :=
  ⟨byte &&& 0xf⟩

/-- `TokenLength::encode`. -/
def TokenLength.encode (t : TokenLength) : Nat :=
  t.value &&& 0xf

/-- `TokenLength::from_value`: refuses values above 8. -/
def TokenLength.fromValue (value : Nat) : Except TokenLengthError TokenLength :=
  if value > 8 then .error (.outOfRange value) else .ok (TokenLength.decode value)

/-- `TokenLength::is_zero_length`. -/
def TokenLength.isZeroLength (t : TokenLength) : Bool :=
  t.value = 0

/-- `TokenLength::zero_length`. -/
def TokenLength.zeroLength : TokenLength := ⟨0⟩

/-- `message_id.rs`: 16-bit message id. -/
structure MessageId where
  value : Nat
deriving DecidableEq, Repr

/-- `MessageId::decode` from two big-endian bytes. -/
def MessageId.decode (hi lo : Nat) : MessageId :=
  ⟨hi * 256 + lo⟩

/-- `MessageId::encode` to two big-endian bytes. -/
def MessageId.encode (m : MessageId) : List Nat :=
  [m.value / 256 % 256, m.value % 256]

/-- `MessageId::from_value`. -/
def MessageId.fromValue (value : Nat) : MessageId := ⟨value⟩

/-- `MessageId::next`: wrapping increment. -/
def MessageId.next (m : MessageId) : MessageId :=
  ⟨(m.value + 1) % 65536⟩

/-! ### Code (src/coapium/src/codec/code) -/

/-- `code/class.rs`: the 3-bit code class. -/
inductive Class
  | requestOrEmpty
  | success
  | clientError
  | serverError
  | reserved (value : Nat)
deriving DecidableEq, Repr

/-- `Class::decode`: the top three bits of the code byte. -/
def Class.decode (byte : Nat) : Class :=
  match byte >>> 5 with
  | 0 => .requestOrEmpty
  | 2 => .success
  | 4 => .clientError
  | 5 => .serverError
  | value => .reserved value

/-- `Class::value`. -/
def Class.value : Class → Nat
  | .requestOrEmpty => 0
  | .success => 2
  | .clientError => 4
  | .serverError => 5
  | .reserved value => value

/-- `Class::encode`. -/
def Class.encode (c : Class) : Nat :=
  c.value <<< 5

/-- `code/detail.rs`: the 5-bit code detail. -/
structure Detail where
  value : Nat
deriving DecidableEq, Repr

/-- `Detail::decode`: the low five bits of the code byte. -/
def Detail.decode (byte : Nat) : Detail :=
  ⟨byte &&& 0x1f⟩

/-- `Detail::encode`. -/
def Detail.encode (d : Detail) : Nat := d.value

/-- `code/method_code.rs`. -/
inductive MethodCode
  | get
  | post
  | put
  | delete
  | unassigned (value : Detail)
deriving DecidableEq, Repr

/-- `MethodCode::decode`. -/
def MethodCode.decode (detail : Detail) : MethodCode :=
  match detail with
  | ⟨1⟩ => .get
  | ⟨2⟩ => .post
  | ⟨3⟩ => .put
  | ⟨4⟩ => .delete
  | d => .unassigned d

/-- `MethodCode::encode`. -/
def MethodCode.encode : MethodCode → Detail
  | .get => ⟨1⟩
  | .post => ⟨2⟩
  | .put => ⟨3⟩
  | .delete => ⟨4⟩
  | .unassigned d => d

/-- `code/response_code.rs`: success codes. -/
inductive Success
  | created
  | deleted
  | valid
  | changed
  | content
  | unassigned (value : Detail)
deriving DecidableEq, Repr

/-- `code/response_code.rs`: client-error codes. -/
inductive ClientError
  | badRequest
  | unauthorized
  | badOption
  | forbidden
  | notFound
  | methodNotAllowed
  | notAcceptable
  | preconditionFailed
  | requestEntityTooLarge
  | unsupportedContentFormat
  | unassigned (value : Detail)
deriving DecidableEq, Repr

/-- `code/response_code.rs`: server-error codes. -/
inductive ServerError
  | internalServerError
  | notImplemented
  | badGateway
  | serviceUnavailable
  | gatewayTimeout
  | proxyingNotSupported
  | unassigned (value : Detail)
deriving DecidableEq, Repr

inductive ResponseCode
  | success (s : Success)
  | clientError (c : ClientError)
  | serverError (s : ServerError)
deriving DecidableEq, Repr

/-- `Success::decode`. -/
def Success.decode (d : Detail) : Success :=
  match d with
  | ⟨1⟩ => .created
  | ⟨2⟩ => .deleted
  | ⟨3⟩ => .valid
  | ⟨4⟩ => .changed
  | ⟨5⟩ => .content
  | d => .unassigned d

/-- `Success::encode`. -/
def Success.encode : Success → Detail
  | .created => ⟨1⟩
  | .deleted => ⟨2⟩
  | .valid => ⟨3⟩
  | .changed => ⟨4⟩
  | .content => ⟨5⟩
  | .unassigned d => d

/-- `ClientError::decode`. -/
def ClientError.decode (d : Detail) : ClientError :=
  match d with
  | ⟨0⟩ => .badRequest
  | ⟨1⟩ => .unauthorized
  | ⟨2⟩ => .badOption
  | ⟨3⟩ => .forbidden
  | ⟨4⟩ => .notFound
  | ⟨5⟩ => .methodNotAllowed
  | ⟨6⟩ => .notAcceptable
  | ⟨12⟩ => .preconditionFailed
  | ⟨13⟩ => .requestEntityTooLarge
  | ⟨15⟩ => .unsupportedContentFormat
  | d => .unassigned d

/-- `ClientError::encode`. -/
def ClientError.encode : ClientError → Detail
  | .badRequest => ⟨0⟩
  | .unauthorized => ⟨1⟩
  | .badOption => ⟨2⟩
  | .forbidden => ⟨3⟩
  | .notFound => ⟨4⟩
  | .methodNotAllowed => ⟨5⟩
  | .notAcceptable => ⟨6⟩
  | .preconditionFailed => ⟨12⟩
  | .requestEntityTooLarge => ⟨13⟩
  | .unsupportedContentFormat => ⟨15⟩
  | .unassigned d => d

/-- `ServerError::decode`. -/
def ServerError.decode (d : Detail) : ServerError :=
  match d with
  | ⟨0⟩ => .internalServerError
  | ⟨1⟩ => .notImplemented
  | ⟨2⟩ => .badGateway
  | ⟨3⟩ => .serviceUnavailable
  | ⟨4⟩ => .gatewayTimeout
  | ⟨5⟩ => .proxyingNotSupported
  | d => .unassigned d

/-- `ServerError::encode`. -/
def ServerError.encode : ServerError → Detail
  | .internalServerError => ⟨0⟩
  | .notImplemented => ⟨1⟩
  | .badGateway => ⟨2⟩
  | .serviceUnavailable => ⟨3⟩
  | .gatewayTimeout => ⟨4⟩
  | .proxyingNotSupported => ⟨5⟩
  | .unassigned d => d

/-- `ResponseCode::encode`, returning class and detail. -/
def ResponseCode.encode : ResponseCode → Class × Detail
  | .success s => (.success, s.encode)
  | .clientError c => (.clientError, c.encode)
  | .serverError s => (.serverError, s.encode)

/-- `code/reserved_code.rs`. -/
structure ReservedCode where
  class' : Class
  detail : Detail
deriving DecidableEq, Repr

/-- `ReservedCode::encode`. -/
def ReservedCode.encode (r : ReservedCode) : Class × Detail :=
  (r.class', r.detail)

/-- `code/mod.rs`: the decoded code byte.  `Code::decode` is total. -/
inductive Code
  | empty
  | request (m : MethodCode)
  | response (r : ResponseCode)
  | reserved (r : ReservedCode)
deriving DecidableEq, Repr

/-- `Code::decode`. -/
def Code.decode (byte : Nat) : Code :=
  match Class.decode byte, Detail.decode byte with
  | .requestOrEmpty, ⟨0⟩ => .empty
  | .requestOrEmpty, detail => .request (MethodCode.decode detail)
  | .success, detail => .response (.success (Success.decode detail))
  | .clientError, detail => .response (.clientError (ClientError.decode detail))
  | .serverError, detail => .response (.serverError (ServerError.decode detail))
  | .reserved v, detail => .reserved ⟨.reserved v, detail⟩

/-- `Code::encode`. -/
def Code.encode (c : Code) : Nat :=
  let (class', detail) :=
    match c with
    | .empty => (Class.requestOrEmpty, Detail.mk 0)
    | .request m => (Class.requestOrEmpty, m.encode)
    | .response r => r.encode
    | .reserved r => r.encode
  class'.encode ||| detail.encode

/-! ### Header, token, payload -/

/-- `header.rs`: the fixed four-byte header. -/
structure Header where
  messageType : MessageType
  tokenLength : TokenLength
  code : Code
  messageId : MessageId
deriving DecidableEq, Repr

inductive HeaderError
  | dataLength
  | version (e : VersionError)
deriving DecidableEq, Repr

/-- `Header::new`. -/
def Header.new (messageType : MessageType) (tokenLength : TokenLength)
    (code : Code) (messageId : MessageId) : Header :=
  { messageType, tokenLength, code, messageId }

/-- `Header::encode`. -/
def Header.encode (h : Header) : List Nat :=
  (Version.v1.encode ||| h.messageType.encode ||| h.tokenLength.encode) ::
    h.code.encode :: h.messageId.encode

/-- `Header::parse`: takes four bytes, validates the version, decodes
the remaining fields (all total). -/
def Header.parse (bytes : List Nat) : Except HeaderError (List Nat × Header) :=
  match bytes with
  | b0 :: b1 :: b2 :: b3 :: rest =>
    match Version.decode b0 with
    | .error e => .error (.version e)
    | .ok _ =>
      .ok (rest,
        { messageType := MessageType.decode b0
          tokenLength := TokenLength.decode b0
          code := Code.decode b1
          messageId := MessageId.decode b2 b3 })
  | _ => .error .dataLength

/-- `token.rs`: an opaque 0-8 byte token. -/
structure Token where
  length : TokenLength
  value : List Nat
deriving DecidableEq, Repr

inductive TokenError | lengthOutOfRange
deriving DecidableEq, Repr

/-- `Token::decode`: the length is taken from the byte count. -/
def Token.decode (bytes : List Nat) : Except TokenError Token :=
  match TokenLength.fromValue bytes.length with
  | .error _ => .error .lengthOutOfRange
  | .ok tokenLength => .ok ⟨tokenLength, bytes⟩

/-- `Token::empty`. -/
def Token.empty : Token := ⟨⟨0⟩, []⟩

/-- `Token::encode`. -/
def Token.encode (t : Token) : TokenLength × List Nat :=
  (t.length, t.value)

/-- `Token::parse`: consume `token_length` bytes. -/
def Token.parse (tokenLength : TokenLength) (bytes : List Nat) :
    Except TokenError (List Nat × Token) :=
  let length := tokenLength.value
  if bytes.length < length then .error .lengthOutOfRange
  else
    match Token.decode (bytes.take length) with
    | .error e => .error e
    | .ok token => .ok (bytes.drop length, token)

/-- `payload.rs`: optional payload preceded by the `0xff` marker. -/
structure Payload where
  value : Option (List Nat)
deriving DecidableEq, Repr

inductive PayloadError | format
deriving DecidableEq, Repr

/-- `Payload::decode`: empty input is no payload; `0xff` alone is an
error; otherwise the marker must come first. -/
def Payload.decode (bytes : List Nat) : Except PayloadError Payload :=
  match bytes with
  | [] => .ok ⟨none⟩
  | [b] => if b = 0xff then .error .format else .error .format
  | b :: rest => if b = 0xff then .ok ⟨some rest⟩ else .error .format

/-- `Payload::empty`. -/
def Payload.empty : Payload := ⟨none⟩

/-- `Payload::encode`. -/
def Payload.encode (p : Payload) : List Nat :=
  match p.value with
  | none => []
  | some bytes => 0xff :: bytes

/-- `Payload::from_value`. -/
def Payload.fromValue (value : List Nat) : Payload :=
  if value.isEmpty then ⟨none⟩ else ⟨some value⟩

/-! ### Option value layer (src/coapium/src/codec/option) -/

/-- `option/delta_header.rs`: `Value` is a 4-bit header literal `0..=12`. -/
structure DeltaHeaderValue where
  value : Nat
deriving DecidableEq, Repr

inductive DeltaHeader
  | length (v : DeltaHeaderValue)
  | extended8Bit
  | extended16Bit
deriving DecidableEq, Repr

inductive DeltaHeaderError
  | range (value : Nat)
  | reserved
deriving DecidableEq, Repr

/-- `delta_header::Value::from_value`: refuses values above 12. -/
def DeltaHeaderValue.fromValue (value : Nat) : Except Unit DeltaHeaderValue :=
  if value > 12 then .error () else .ok ⟨value⟩

/-- `DeltaHeader::from_value`. -/
def DeltaHeader.fromValue (value : Nat) : Except DeltaHeaderError DeltaHeader :=
  if value > 15 then .error (.range value)
  else if value = 13 then .ok .extended8Bit
  else if value = 14 then .ok .extended16Bit
  else if value = 15 then .error .reserved
  else
    match DeltaHeaderValue.fromValue value with
    | .ok v => .ok (.length v)
    | .error _ => .error (.range value)

/-- `DeltaHeader::decode`: the high nibble of the option header byte. -/
def DeltaHeader.decode (byte : Nat) : Except DeltaHeaderError DeltaHeader :=
  DeltaHeader.fromValue (byte >>> 4)

/-- `DeltaHeader::value`. -/
def DeltaHeader.value : DeltaHeader → Nat
  | .length v => v.value
  | .extended8Bit => 13
  | .extended16Bit => 14

/-- `DeltaHeader::encode`. -/
def DeltaHeader.encode (h : DeltaHeader) : Nat :=
  h.value <<< 4

/-- `option/length_header.rs`: same structure for the length nibble. -/
structure LengthHeaderValue where
  value : Nat
deriving DecidableEq, Repr

inductive LengthHeader
  | length (v : LengthHeaderValue)
  | extended8Bit
  | extended16Bit
deriving DecidableEq, Repr

inductive LengthHeaderError
  | range (value : Nat)
  | reserved
deriving DecidableEq, Repr

/-- `length_header::Value::from_value`. -/
def LengthHeaderValue.fromValue (value : Nat) : Except Unit LengthHeaderValue :=
  if value > 12 then .error () else .ok ⟨value⟩

/-- `LengthHeader::from_value` (applied to `value & 0xf`). -/
def LengthHeader.fromValue (value : Nat) : Except LengthHeaderError LengthHeader :=
  if value > 15 then .error (.range value)
  else if value &&& 0xf = 13 then .ok .extended8Bit
  else if value &&& 0xf = 14 then .ok .extended16Bit
  else if value &&& 0xf = 15 then .error .reserved
  else
    match LengthHeaderValue.fromValue (value &&& 0xf) with
    | .ok v => .ok (.length v)
    | .error _ => .error (.range (value &&& 0xf))

/-- `LengthHeader::decode`: the low nibble of the option header byte. -/
def LengthHeader.decode (byte : Nat) : Except LengthHeaderError LengthHeader :=
  LengthHeader.fromValue (byte &&& 0xf)

/-- `LengthHeader::value`. -/
def LengthHeader.value : LengthHeader → Nat
  | .length v => v.value
  | .extended8Bit => 13
  | .extended16Bit => 14

/-- `LengthHeader::encode`. -/
def LengthHeader.encode (h : LengthHeader) : Nat :=
  h.value

/-- `option/delta.rs`: the option-number delta with its 8/16-bit
extended forms (offsets 13 and 269). -/
inductive Delta
  | length (v : DeltaHeaderValue)
  | extended8Bit (v : Nat)
  | extended16Bit (v : Nat)
deriving DecidableEq, Repr

inductive DeltaDecodeError
  | combination (header : DeltaHeader) (len : Nat)
  | header (e : DeltaHeaderError)
  | outOfRange (value : Nat)
deriving DecidableEq, Repr

/-- `Delta::decode` from a header and the extended bytes. -/
def Delta.decode (deltaHeader : DeltaHeader) (extended : List Nat) :
    Except DeltaDecodeError Delta :=
  match deltaHeader, extended with
  | .length v, [] => .ok (.length v)
  | .extended8Bit, [byte] => .ok (.extended8Bit byte)
  | .extended16Bit, [first, second] =>
    let value := first * 256 + second
    if value > 65535 - 269 then .error (.outOfRange value)
    else .ok (.extended16Bit value)
  | header, ext => .error (.combination header ext.length)

/-- `Delta::encode` to header plus extended bytes. -/
def Delta.encode : Delta → DeltaHeader × List Nat
  | .length v => (.length v, [])
  | .extended8Bit v => (.extended8Bit, [v % 256])
  | .extended16Bit v => (.extended16Bit, [v / 256 % 256, v % 256])

/-- `Delta::from_value` (total over `u16`). -/
def Delta.fromValue (value : Nat) : Delta :=
  if value ≤ 12 then .length ⟨value⟩
  else if value ≤ 255 + 13 then .extended8Bit (value - 13)
  else .extended16Bit (value - 269)

/-- `Delta::value`. -/
def Delta.value : Delta → Nat
  | .length v => v.value
  | .extended8Bit v => v + 13
  | .extended16Bit v => v + 269

/-- `Delta::repeating`: the zero delta that marks a repeated option. -/
def Delta.repeating : Delta := .length ⟨0⟩

/-- `Delta::is_repeating`. -/
def Delta.isRepeating (d : Delta) : Bool :=
  d = Delta.repeating

/-- `Delta::sub` (via `Delta::from_value(self.value() - other.value())`;
Rust `u16` subtraction saturates at a panic on underflow, but every call
site subtracts a smaller running delta; `Nat` subtraction truncates). -/
def Delta.sub (d other : Delta) : Delta :=
  Delta.fromValue (d.value - other.value)

/-- `Delta::parse`: reads the extended bytes the header announces.
Returns `none` for the out-of-range slice panic on truncated input. -/
def Delta.parse (headerByte : Nat) (bytes : List Nat) :
    Option (Except DeltaDecodeError (List Nat × Delta)) :=
  match DeltaHeader.decode headerByte with
  | .error e => some (.error (.header e))
  | .ok (.length v) =>
    some ((Delta.decode (.length v) []).map fun d => (bytes, d))
  | .ok .extended8Bit =>
    match bytes with
    | [] => none
    | b :: rest => some ((Delta.decode .extended8Bit [b]).map fun d => (rest, d))
  | .ok .extended16Bit =>
    match bytes with
    | b1 :: b2 :: rest =>
      some ((Delta.decode .extended16Bit [b1, b2]).map fun d => (rest, d))
    | _ => none

/-- `option/length.rs`: the value length, same shape as `Delta`. -/
inductive OptLength
  | length (v : LengthHeaderValue)
  | extended8Bit (v : Nat)
  | extended16Bit (v : Nat)
deriving DecidableEq, Repr

inductive LengthDecodeError
  | combination (header : LengthHeader) (len : Nat)
  | header (e : LengthHeaderError)
  | outOfRange (value : Nat)
deriving DecidableEq, Repr

/-- `Length::decode`. -/
def OptLength.decode (lengthHeader : LengthHeader) (extended : List Nat) :
    Except LengthDecodeError OptLength :=
  match lengthHeader, extended with
  | .length v, [] => .ok (.length v)
  | .extended8Bit, [byte] => .ok (.extended8Bit byte)
  | .extended16Bit, [first, second] =>
    let value := first * 256 + second
    if value > 65535 - 269 then .error (.outOfRange value)
    else .ok (.extended16Bit value)
  | header, ext => .error (.combination header ext.length)

/-- `Length::encode`. -/
def OptLength.encode : OptLength → LengthHeader × List Nat
  | .length v => (.length v, [])
  | .extended8Bit v => (.extended8Bit, [v % 256])
  | .extended16Bit v => (.extended16Bit, [v / 256 % 256, v % 256])

/-- `Length::from_value` (total over `u16`). -/
def OptLength.fromValue (value : Nat) : OptLength :=
  if value ≤ 12 then .length ⟨value⟩
  else if value ≤ 255 + 13 then .extended8Bit (value - 13)
  else .extended16Bit (value - 269)

/-- `Length::value`. -/
def OptLength.value : OptLength → Nat
  | .length v => v.value
  | .extended8Bit v => v + 13
  | .extended16Bit v => v + 269

/-- `Length::parse`, mirroring `Delta::parse` (with `none` for the
slice panic on truncated input). -/
def OptLength.parse (headerByte : Nat) (bytes : List Nat) :
    Option (Except LengthDecodeError (List Nat × OptLength)) :=
  match LengthHeader.decode headerByte with
  | .error e => some (.error (.header e))
  | .ok (.length v) =>
    some ((OptLength.decode (.length v) []).map fun l => (bytes, l))
  | .ok .extended8Bit =>
    match bytes with
    | [] => none
    | b :: rest => some ((OptLength.decode .extended8Bit [b]).map fun l => (rest, l))
  | .ok .extended16Bit =>
    match bytes with
    | b1 :: b2 :: rest =>
      some ((OptLength.decode .extended16Bit [b1, b2]).map fun l => (rest, l))
    | _ => none

/-- `option/value.rs`: an option value is empty or a length-tagged byte
string. -/
inductive Value
  | empty
  | bytes (length : OptLength) (data : List Nat)
deriving DecidableEq, Repr

inductive ValueValueError | lengthOutOfBounds
deriving DecidableEq, Repr

inductive ValueError
  | length (e : LengthDecodeError)
  | value (e : ValueValueError)
deriving DecidableEq, Repr

/-- `Value::len`. -/
def Value.len : Value → Nat
  | .empty => 0
  | .bytes length _ => length.value

/-- `Value::decode`. -/
def Value.decode (bytes : List Nat) : Except ValueError Value :=
  if bytes.isEmpty then .ok .empty
  else if bytes.length > 65535 then .error (.value .lengthOutOfBounds)
  else .ok (.bytes (OptLength.fromValue bytes.length) bytes)

/-- `Value::parse`: parse the length (propagating its slice panic as
`none`), then consume that many value bytes. -/
def Value.parse (headerByte : Nat) (bytes : List Nat) :
    Option (Except ValueError (List Nat × Value)) :=
  match OptLength.parse headerByte bytes with
  | none => none
  | some (.error e) => some (.error (.length e))
  | some (.ok (bytes, length)) =>
    let length := length.value
    if bytes.length < length then some (.error (.value .lengthOutOfBounds))
    else
      some ((Value.decode (bytes.take length)).map fun v => (bytes.drop length, v))

/-- `Value::u16`: zero, one or two big-endian bytes. -/
def Value.u16 : Value → Except Unit Nat
  | .empty => .ok 0
  | .bytes _ data =>
    match data with
    | [] => .ok 0
    | [b] => .ok b
    | [b1, b2] => .ok (b1 * 256 + b2)
    | _ => .error ()

/-- `Value::u32`: up to four big-endian bytes. -/
def Value.u32 : Value → Except Unit Nat
  | .empty => .ok 0
  | .bytes _ data =>
    match data with
    | [] => .ok 0
    | [b] => .ok b
    | [b1, b2] => .ok (b1 * 256 + b2)
    | [b1, b2, b3] => .ok ((b1 * 256 + b2) * 256 + b3)
    | [b1, b2, b3, b4] => .ok (((b1 * 256 + b2) * 256 + b3) * 256 + b4)
    | _ => .error ()

/-- `Value::is_bytes`. -/
def Value.isBytes : Value → Bool
  | .bytes _ _ => true
  | .empty => false

/-- `Value::is_empty`. -/
def Value.isEmpty : Value → Bool
  | .empty => true
  | .bytes _ _ => false

/-- `Value::length`. -/
def Value.length : Value → OptLength
  | .empty => OptLength.fromValue 0
  | .bytes length _ => length

/-- `Value::encode`. -/
def Value.encode : Value → List Nat
  | .empty => []
  | .bytes _ data => data

/-- `Value::from_u8`: `0` encodes as the empty value. -/
def Value.fromU8 (value : Nat) : Value :=
  if value = 0 then .empty
  else .bytes (OptLength.fromValue 1) [value]

/-- `Value::from_u16`. -/
def Value.fromU16 (value : Nat) : Value :=
  if value = 0 then .empty
  else if value ≤ 255 then Value.fromU8 value
  else .bytes (OptLength.fromValue 2) [value / 256 % 256, value % 256]

/-- `Value::from_u32`. -/
def Value.fromU32 (value : Nat) : Value :=
  if value = 0 then .empty
  else if value ≤ 255 then Value.fromU8 value
  else if value ≤ 65535 then Value.fromU16 value
  else .bytes (OptLength.fromValue 4)
    [value / 16777216 % 256, value / 65536 % 256, value / 256 % 256, value % 256]

/-- UTF-8 validity of a byte list, as checked by Rust's
`String::from_utf8`.  Strings are kept as raw byte lists in this
embedding; only their validity is ever inspected. -/
def utf8Valid : List Nat → Bool
  | [] => true
  | b :: rest =>
    if b < 0x80 then utf8Valid rest
    else if b < 0xc2 then false
    else if b < 0xe0 then
      match rest with
      | c1 :: rest' => decide (0x80 ≤ c1 ∧ c1 < 0xc0) && utf8Valid rest'
      | _ => false
    else if b < 0xf0 then
      match rest with
      | c1 :: c2 :: rest' =>
        let lo1 := if b = 0xe0 then 0xa0 else 0x80
        let hi1 := if b = 0xed then 0xa0 else 0xc0
        decide (lo1 ≤ c1 ∧ c1 < hi1) && decide (0x80 ≤ c2 ∧ c2 < 0xc0) && utf8Valid rest'
      | _ => false
    else if b < 0xf5 then
      match rest with
      | c1 :: c2 :: c3 :: rest' =>
        let lo1 := if b = 0xf0 then 0x90 else 0x80
        let hi1 := if b = 0xf4 then 0x90 else 0xc0
        decide (lo1 ≤ c1 ∧ c1 < hi1) && decide (0x80 ≤ c2 ∧ c2 < 0xc0) &&
          decide (0x80 ≤ c3 ∧ c3 < 0xc0) && utf8Valid rest'
      | _ => false
    else false

/-- `Value::valid_as_string`: UTF-8 validity. -/
def Value.validAsString : Value → Bool
  | .empty => true
  | .bytes _ data => utf8Valid data

/-- `Value::valid_as_u16`. -/
def Value.validAsU16 (v : Value) : Bool :=
  (v.u16).isOk

/-- `Value::string`: the decoded string, kept as its UTF-8 bytes. -/
def Value.string : Value → Except Unit (List Nat)
  | .empty => .ok []
  | .bytes _ data => if utf8Valid data then .ok data else .error ()

/-- `Value::opaque`. -/
def Value.opaque : Value → List Nat
  | .empty => []
  | .bytes _ data => data

/-- `option/encoded_option.rs`: one wire option before delta
resolution. -/
structure EncodedOption where
  delta : Delta
  value : Value
deriving DecidableEq, Repr

inductive EncodedOptionError
  | headerMissing
  | delta (e : DeltaDecodeError)
  | value (e : ValueError)
deriving DecidableEq, Repr

/-- `EncodedOption::new` / `EncodedOption::decode`. -/
def EncodedOption.new (delta : Delta) (value : Value) : EncodedOption :=
  ⟨delta, value⟩

/-- `EncodedOption::encode`: header byte, extended delta bytes,
extended length bytes, value bytes. -/
def EncodedOption.encode (o : EncodedOption) : List Nat :=
  let (deltaHeader, deltaExtended) := o.delta.encode
  let (lengthHeader, lengthExtended) := o.value.length.encode
  let flags := deltaHeader.encode ||| lengthHeader.encode
  flags :: (deltaExtended ++ lengthExtended ++ o.value.encode)

/-- `EncodedOption::parse`: header byte, then delta, then value.
`none` propagates slice panics from the extended-byte reads. -/
def EncodedOption.parse (bytes : List Nat) :
    Option (Except EncodedOptionError (List Nat × EncodedOption)) :=
  match bytes with
  | [] => some (.error .headerMissing)
  | flags :: rest =>
    match Delta.parse flags rest with
    | none => none
    | some (.error e) => some (.error (.delta e))
    | some (.ok (rest, delta)) =>
      match Value.parse flags rest with
      | none => none
      | some (.error e) => some (.error (.value e))
      | some (.ok (rest, value)) => some (.ok (rest, ⟨delta, value⟩))

/-! ### Option numbers (src/coapium/src/codec/option/number) -/

/-- `number/class.rs`: critical iff the low bit of the number is set. -/
inductive NumberClass
  | elective
  | critical
deriving DecidableEq, Repr

/-- `Class::decode`. -/
def NumberClass.decode (byte : Nat) : NumberClass :=
  if byte &&& 1 = 1 then .critical else .elective

/-- `Class::is_critical`. -/
def NumberClass.isCritical : NumberClass → Bool
  | .critical => true
  | .elective => false

/-- `number/cache_key.rs`. -/
inductive CacheKey
  | notSet
  | set (v : Nat)
deriving DecidableEq, Repr

/-- `CacheKey::decode`: bits 2-4. -/
def CacheKey.decode (byte : Nat) : CacheKey :=
  let cacheKey := byte &&& 0b11100
  if cacheKey = 0b11100 then .notSet else .set (cacheKey >>> 2)

/-- `number/forward.rs`: unsafe-to-forward iff bit 1 is set. -/
inductive Forward
  | safe (k : CacheKey)
  | unsafeToForward
deriving DecidableEq, Repr

/-- `Forward::decode`. -/
def Forward.decode (byte : Nat) : Forward :=
  if byte &&& 2 = 2 then .unsafeToForward else .safe (CacheKey.decode byte)

/-- `number/mod.rs`: an option number with its derived class and
forwarding bits. -/
structure Number where
  class' : NumberClass
  forward : Forward
  value : Delta
deriving DecidableEq, Repr

inductive NumberError | reserved (d : Delta)
deriving DecidableEq, Repr

/-- The reserved option numbers (`RESERVED` in `number/mod.rs`). -/
def numberReserved : List Delta :=
  [Delta.fromValue 0, Delta.fromValue 128, Delta.fromValue 132,
    Delta.fromValue 136, Delta.fromValue 140]

/-- `Number::decode`: rejects reserved numbers, then derives the class
and forward flags from the low byte of the value. -/
def Number.decode (delta : Delta) : Except NumberError Number :=
  if numberReserved.contains delta then .error (.reserved delta)
  else
    let flags := delta.value &&& 255
    .ok ⟨NumberClass.decode flags, Forward.decode flags, delta⟩

/-- `Number::encode`: the delta against the running delta sum. -/
def Number.encode (n : Number) (deltaSum : Delta) : Delta :=
  n.value.sub deltaSum

/-- `Number::from_value`. -/
def Number.fromValue (value : Nat) : Except NumberError Number :=
  Number.decode (Delta.fromValue value)

/-- `Number::from_value_or_panic`, used only on the fixed option-number
constants, none of which is reserved (so the panic branch, modelled by a
junk value, is never taken). -/
def Number.fromValueOrPanic (value : Nat) : Number :=
  match Number.fromValue value with
  | .ok n => n
  | .error _ => ⟨.elective, .unsafeToForward, Delta.fromValue 0⟩

/-- `option/decoded_option.rs`: a number with its grouped repeated
values. -/
structure DecodedOption where
  number : Number
  values : List Value
deriving DecidableEq, Repr

inductive DecodedOptionError
  | emptyOptions
  | number (e : NumberError)
deriving DecidableEq, Repr

/-- `DecodedOption::encode`: values that are `Empty` are filtered out;
the first remaining value carries the real delta, later ones the zero
(repeating) delta; with no remaining value a single empty-value option
is emitted. -/
def DecodedOption.encode (o : DecodedOption) (deltaSum : Delta) : List Nat :=
  let values := o.values.filter Value.isBytes
  match values with
  | [] => (EncodedOption.new (o.number.encode deltaSum) .empty).encode
  | first :: rest =>
    (EncodedOption.new (o.number.encode deltaSum) first).encode ++
      (rest.map fun x => (EncodedOption.new Delta.repeating x).encode).flatten

/-- `DecodedOption::parse`: takes the head option's number and all
immediately following options with the repeating (zero) delta. -/
def DecodedOption.parse (input : List EncodedOption) :
    Except DecodedOptionError (List EncodedOption × DecodedOption) :=
  match input with
  | [] => .error .emptyOptions
  | head :: tail =>
    match Number.decode head.delta with
    | .error e => .error (.number e)
    | .ok number =>
      let repeats := tail.takeWhile fun o => o.delta.isRepeating
      let values := head.value :: repeats.map (·.value)
      .ok (input.drop values.length, ⟨number, values⟩)

/-- `option/decoded_options.rs`: the grouped options of a message. -/
structure DecodedOptions where
  options : List DecodedOption
deriving DecidableEq, Repr

inductive DecodedOptionsError
  | encodedOption (e : EncodedOptionError)
  | decodedOption (e : DecodedOptionError)
deriving DecidableEq, Repr

/-- The grouping loop of `DecodedOptions::decode`, by fuel (each parse
consumes at least one element, so `input.length` steps suffice). -/
def DecodedOptions.decodeGo (fuel : Nat) (input : List EncodedOption)
    (acc : List DecodedOption) :
    Except DecodedOptionsError (List DecodedOption) :=
  match fuel with
  | 0 => .ok acc
  | fuel + 1 =>
    if input.isEmpty then .ok acc
    else
      match DecodedOption.parse input with
      | .error e => .error (.decodedOption e)
      | .ok (rest, option) => DecodedOptions.decodeGo fuel rest (acc ++ [option])

/-- `DecodedOptions::decode`. -/
def DecodedOptions.decode (encodedOptions : List EncodedOption) :
    Except DecodedOptionsError DecodedOptions :=
  (DecodedOptions.decodeGo encodedOptions.length encodedOptions []).map
    fun options => ⟨options⟩

/-- The `many0(EncodedOption::parse)` loop of `DecodedOptions::parse`:
parse options until the parser fails (the remaining input from the
failure point is returned), propagating parser panics as `none`. -/
def many0EncodedOption (fuel : Nat) (bytes : List Nat) :
    Option (List Nat × List EncodedOption) :=
  match fuel with
  | 0 => some (bytes, [])
  | fuel + 1 =>
    match EncodedOption.parse bytes with
    | none => none
    | some (.error _) => some (bytes, [])
    | some (.ok (rest, option)) =>
      match many0EncodedOption fuel rest with
      | none => none
      | some (rest', options) => some (rest', option :: options)

/-- `DecodedOptions::parse`: `many0` then grouping.  On empty input
`many0` immediately returns no options. -/
def DecodedOptions.parse (bytes : List Nat) :
    Option (Except DecodedOptionsError (List Nat × DecodedOptions)) :=
  match many0EncodedOption bytes.length bytes with
  | none => none
  | some (rest, options) =>
    some ((DecodedOptions.decode options).map fun o => (rest, o))

/-! ### Typed option catalogue (src/coapium/src/codec/option/...) -/

/-- `parsing.rs` `single` / `single_or_err`: succeeds exactly on
one-element lists. -/
def single : List α → Except Unit α
  | [x] => .ok x
  | _ => .error ()

/-- `media_type.rs`: content formats with the RFC range bands. -/
inductive MediaType
  | textPlain
  | charsetUtf8
  | applicationLinkFormat
  | applicationXml
  | applicationOctetStream
  | applicationExi
  | applicationJson
  | expertReview (v : Nat)
  | ietfOrIesg (v : Nat)
  | firstComeFirstServe (v : Nat)
  | experimental (v : Nat)
deriving DecidableEq, Repr

inductive MediaTypeError
  | singleValue
  | number
deriving DecidableEq, Repr

/-- `MediaType::from_value` (total over `u16`). -/
def MediaType.fromValue (value : Nat) : MediaType :=
  if value = 0 then .textPlain
  else if value = 40 then .applicationLinkFormat
  else if value = 41 then .applicationXml
  else if value = 42 then .applicationOctetStream
  else if value = 47 then .applicationExi
  else if value = 50 then .applicationJson
  else if value ≤ 255 then .expertReview value
  else if value ≤ 9999 then .ietfOrIesg value
  else if value ≤ 64999 then .firstComeFirstServe value
  else .experimental value

/-- `MediaType::value`: `CharsetUtf8` has no numeric id. -/
def MediaType.value : MediaType → Option Nat
  | .textPlain => some 0
  | .charsetUtf8 => none
  | .applicationLinkFormat => some 40
  | .applicationXml => some 41
  | .applicationOctetStream => some 42
  | .applicationExi => some 47
  | .applicationJson => some 50
  | .expertReview v => some v
  | .ietfOrIesg v => some v
  | .firstComeFirstServe v => some v
  | .experimental v => some v

/-- `MediaType::decode`. -/
def MediaType.decode (values : List Value) : Except MediaTypeError MediaType :=
  match single values with
  | .error _ => .error .singleValue
  | .ok value =>
    match value.u16 with
    | .error _ => .error .number
    | .ok v => .ok (MediaType.fromValue v)

/-- Lower-casing of ASCII bytes, as the `url` crate does to hosts. -/
def asciiLower (b : Nat) : Nat :=
  if 65 ≤ b ∧ b ≤ 90 then b + 32 else b

/-- Modelled from the spec: `UriHost::from_value` delegates host
validation to the external `url` crate (`Url::parse("coap://{host}")`
followed by `host_str()`), which is not part of this repository.  The
spec (§4.3, §6) says the host must parse as an RFC 3986 host and is
lower-cased.  Modelled as: non-empty, all bytes from the unreserved
registered-name alphabet after lower-casing.  No claim verified in this
file depends on the exact accepted language. -/
def urlParseHost (s : List Nat) : Option (List Nat) :=
  let lowered := s.map asciiLower
  if s.isEmpty then none
  else if lowered.all fun b =>
      (48 ≤ b ∧ b ≤ 57) ∨ (97 ≤ b ∧ b ≤ 122) ∨ b = 45 ∨ b = 46 ∨ b = 95 ∨ b = 126 then
    some lowered
  else none

/-- `uri_host.rs`. -/
structure UriHost where
  host : Value
deriving DecidableEq, Repr

inductive UriHostValueError
  | format
  | length (n : Nat)
deriving DecidableEq, Repr

inductive UriHostDecodeError
  | singleValue
  | value (e : UriHostValueError)
deriving DecidableEq, Repr

/-- `UriHost::from_value`: url-parse, extract host, validate length
`1..=255`, re-wrap as a `Value`. -/
def UriHost.fromValue (value : List Nat) : Except UriHostValueError UriHost :=
  match urlParseHost value with
  | none => .error .format
  | some host =>
    if host.isEmpty ∨ host.length > 255 then .error (.length host.length)
    else
      match Value.decode host with
      | .error _ => .error .format
      | .ok v => .ok ⟨v⟩

/-- `UriHost::decode`: a single UTF-8 value passed to `from_value`. -/
def UriHost.decode (values : List Value) : Except UriHostDecodeError UriHost :=
  match single values with
  | .error _ => .error .singleValue
  | .ok value =>
    match value.string with
    | .error _ => .error (.value .format)
    | .ok s =>
      match UriHost.fromValue s with
      | .error e => .error (.value e)
      | .ok h => .ok h

/-- `UriHost::number` (3). -/
def UriHost.number : Number := Number.fromValueOrPanic 3

/-- `UriHost::encode`. -/
def UriHost.encode (h : UriHost) (deltaSum : Delta) : List Nat :=
  (DecodedOption.mk UriHost.number [h.host]).encode deltaSum

/-- `uri_path.rs`. -/
structure UriPath where
  segments : List Value
deriving DecidableEq, Repr

inductive UriPathError
  | format
  | length (n : Nat)
deriving DecidableEq, Repr

/-- `uri_path.rs` `to_value`: length-checked `Value::from_str`. -/
def UriPath.toValue (segment : List Nat) : Except UriPathError Value :=
  if segment.length > 255 then .error (.length segment.length)
  else
    match Value.decode segment with
    | .error _ => .error .format
    | .ok v => .ok v

/-- Modelled from the spec: `UriPath::from_value` parses
`coap://127.0.0.1/{path}` with the external `url` crate and walks
`path_segments()`.  Modelled as: reject a path containing `?` or `#`
(query or fragment), split the remainder on `/` (after stripping one
leading `/`), keep the resulting segments.  The initial empty segment
coming from a leading `/` is then dropped by `is_tail_segment`. -/
def UriPath.fromValue (value : List Nat) : Except UriPathError UriPath :=
  if value.contains 63 ∨ value.contains 35 then .error .format
  else
    let path := if value.head? = some 47 then value.drop 1 else value
    let segments := path.splitOn 47
    match segments.mapM UriPath.toValue with
    | .error e => .error e
    | .ok values =>
      let kept := (values.enum.filter fun x =>
        ¬ (x.1 = 0 ∧ x.2 = Value.empty)).map (·.2)
      .ok ⟨kept⟩

/-- `UriPath::decode`: values decoded as strings, joined with `/`, and
re-parsed through `from_value`. -/
def UriPath.decode (encodedOptions : List Value) : Except UriPathError UriPath :=
  match encodedOptions.mapM Value.string with
  | .error _ => .error .format
  | .ok segments => UriPath.fromValue ((segments.intersperse [47]).flatten)

/-- `UriPath::number` (11). -/
def UriPath.number : Number := Number.fromValueOrPanic 11

/-- `UriPath::encode`. -/
def UriPath.encode (p : UriPath) (deltaSum : Delta) : List Nat :=
  (DecodedOption.mk UriPath.number p.segments).encode deltaSum

/-- `uri_port.rs`. -/
structure UriPort where
  value : Value
deriving DecidableEq, Repr

inductive UriPortDecodeError
  | singleValue
  | format
deriving DecidableEq, Repr

/-- `UriPort::decode`: a single value that fits in a `u16`. -/
def UriPort.decode (values : List Value) : Except UriPortDecodeError UriPort :=
  match single values with
  | .error _ => .error .singleValue
  | .ok value =>
    if value.validAsU16 then .ok ⟨value⟩ else .error .format

/-- `UriPort::from_u16`. -/
def UriPort.fromU16 (value : Nat) : UriPort := ⟨Value.fromU16 value⟩

/-- `UriPort::number` (7). -/
def UriPort.number : Number := Number.fromValueOrPanic 7

/-- `UriPort::encode`. -/
def UriPort.encode (p : UriPort) (deltaSum : Delta) : List Nat :=
  (DecodedOption.mk UriPort.number [p.value]).encode deltaSum

/-- `uri_query.rs`: values are kept percent-encoded. -/
structure UriQuery where
  queries : List Value
deriving DecidableEq, Repr

inductive UriQueryError
  | length (n : Nat)
  | string
  | value (e : ValueError)
deriving DecidableEq, Repr

/-- `UriQuery::decode_value`: UTF-8 and at most 255 bytes. -/
def UriQuery.decodeValue (value : Value) : Except UriQueryError Value :=
  if ¬ value.validAsString then .error .string
  else if value.len > 255 then .error (.length value.len)
  else .ok value

/-- `UriQuery::decode`. -/
def UriQuery.decode (values : List Value) : Except UriQueryError UriQuery :=
  (values.mapM UriQuery.decodeValue).map fun vs => ⟨vs⟩

/-- `UriQuery::new`. -/
def UriQuery.new : UriQuery := ⟨[]⟩

/-- `UriQuery::number` (15). -/
def UriQuery.number : Number := Number.fromValueOrPanic 15

/-- `UriQuery::encode`. -/
def UriQuery.encode (q : UriQuery) (deltaSum : Delta) : List Nat :=
  (DecodedOption.mk UriQuery.number q.queries).encode deltaSum

/-- `accept.rs`. -/
structure Accept where
  value : Value
deriving DecidableEq, Repr

inductive AcceptError
  | singleValue
  | format
deriving DecidableEq, Repr

/-- `Accept::decode`: a single value whose `u16` reading must succeed
(the derived `MediaType` is only used for validation). -/
def Accept.decode (values : List Value) : Except AcceptError Accept :=
  match single values with
  | .error _ => .error .singleValue
  | .ok value =>
    match value.u16 with
    | .error _ => .error .format
    | .ok _ => .ok ⟨value⟩

/-- `Accept::number` (17). -/
def Accept.number : Number := Number.fromValueOrPanic 17

/-- `Accept::encode`. -/
def Accept.encode (a : Accept) (deltaSum : Delta) : List Nat :=
  (DecodedOption.mk Accept.number [a.value]).encode deltaSum

/-- `content_format.rs`. -/
structure ContentFormat where
  mediaType : MediaType
deriving DecidableEq, Repr

inductive ContentFormatError
  | mediaType (e : MediaTypeError)
deriving DecidableEq, Repr

/-- `ContentFormat::decode`. -/
def ContentFormat.decode (values : List Value) :
    Except ContentFormatError ContentFormat :=
  match MediaType.decode values with
  | .error e => .error (.mediaType e)
  | .ok m => .ok ⟨m⟩

/-- `ContentFormat::number` (12). -/
def ContentFormat.number : Number := Number.fromValueOrPanic 12

/-- `ContentFormat::encode`: a media type with no numeric id encodes to
nothing at all. -/
def ContentFormat.encode (c : ContentFormat) (deltaSum : Delta) : List Nat :=
  match c.mediaType.value with
  | some value => (DecodedOption.mk ContentFormat.number [Value.fromU16 value]).encode deltaSum
  | none => []

/-- `etag.rs`. -/
structure ETag where
  values : List Value
deriving DecidableEq, Repr

inductive ETagError | length (n : Nat)
deriving DecidableEq, Repr

/-- `ETag::decode_value`: each value `1..=8` bytes. -/
def ETag.decodeValue (value : Value) : Except ETagError Value :=
  if value.len < 1 then .error (.length value.len)
  else if value.len > 8 then .error (.length value.len)
  else .ok value

/-- `ETag::decode`. -/
def ETag.decode (values : List Value) : Except ETagError ETag :=
  (values.mapM ETag.decodeValue).map fun vs => ⟨vs⟩

/-- `ETag::number` (4). -/
def ETag.number : Number := Number.fromValueOrPanic 4

/-- `ETag::encode`. -/
def ETag.encode (e : ETag) (deltaSum : Delta) : List Nat :=
  (DecodedOption.mk ETag.number e.values).encode deltaSum

/-- `if_match.rs`. -/
structure IfMatch where
  values : List Value
deriving DecidableEq, Repr

inductive IfMatchError | length
deriving DecidableEq, Repr

/-- `IfMatch::decode_value`: each value at most 8 bytes. -/
def IfMatch.decodeValue (value : Value) : Except IfMatchError Value :=
  if value.len > 8 then .error .length else .ok value

/-- `IfMatch::decode`. -/
def IfMatch.decode (values : List Value) : Except IfMatchError IfMatch :=
  (values.mapM IfMatch.decodeValue).map fun vs => ⟨vs⟩

/-- `IfMatch::number` (1). -/
def IfMatch.number : Number := Number.fromValueOrPanic 1

/-- `IfMatch::encode`. -/
def IfMatch.encode (i : IfMatch) (deltaSum : Delta) : List Nat :=
  (DecodedOption.mk IfMatch.number i.values).encode deltaSum

/-- `if_none_match.rs`. -/
structure IfNoneMatch where
deriving DecidableEq, Repr

inductive IfNoneMatchError
  | singleValue
  | notEmpty
deriving DecidableEq, Repr

/-- `IfNoneMatch::decode`: exactly one, empty, value. -/
def IfNoneMatch.decode (values : List Value) :
    Except IfNoneMatchError IfNoneMatch :=
  match values with
  | [value] => if ¬ value.isEmpty then .error .notEmpty else .ok ⟨⟩
  | _ => .error .singleValue

/-- `IfNoneMatch::number` (5). -/
def IfNoneMatch.number : Number := Number.fromValueOrPanic 5

/-- `IfNoneMatch::encode`. -/
def IfNoneMatch.encode (_ : IfNoneMatch) (deltaSum : Delta) : List Nat :=
  (DecodedOption.mk IfNoneMatch.number [Value.empty]).encode deltaSum

/-- `location_path.rs`. -/
structure LocationPath where
  values : List Value
deriving DecidableEq, Repr

inductive LocationPathError
  | format
  | length (n : Nat)
deriving DecidableEq, Repr

/-- `LocationPath::decode_value`: UTF-8 and at most 255 bytes. -/
def LocationPath.decodeValue (value : Value) : Except LocationPathError Value :=
  if ¬ value.validAsString then .error .format
  else if value.len > 255 then .error (.length value.len)
  else .ok value

/-- `LocationPath::decode`. -/
def LocationPath.decode (values : List Value) :
    Except LocationPathError LocationPath :=
  (values.mapM LocationPath.decodeValue).map fun vs => ⟨vs⟩

/-- `LocationPath::number` (8). -/
def LocationPath.number : Number := Number.fromValueOrPanic 8

/-- `LocationPath::encode`. -/
def LocationPath.encode (l : LocationPath) (deltaSum : Delta) : List Nat :=
  (DecodedOption.mk LocationPath.number l.values).encode deltaSum

/-- `location_query.rs`. -/
structure LocationQuery where
  values : List Value
deriving DecidableEq, Repr

inductive LocationQueryError
  | format
  | length (n : Nat)
deriving DecidableEq, Repr

/-- `LocationQuery::decode_value`. -/
def LocationQuery.decodeValue (value : Value) : Except LocationQueryError Value :=
  if ¬ value.validAsString then .error .format
  else if value.len > 255 then .error (.length value.len)
  else .ok value

/-- `LocationQuery::decode`. -/
def LocationQuery.decode (values : List Value) :
    Except LocationQueryError LocationQuery :=
  (values.mapM LocationQuery.decodeValue).map fun vs => ⟨vs⟩

/-- `LocationQuery::number` (20). -/
def LocationQuery.number : Number := Number.fromValueOrPanic 20

/-- `LocationQuery::encode`. -/
def LocationQuery.encode (l : LocationQuery) (deltaSum : Delta) : List Nat :=
  (DecodedOption.mk LocationQuery.number l.values).encode deltaSum

/-- `max_age.rs`. -/
structure MaxAge where
  value : Value
deriving DecidableEq, Repr

inductive MaxAgeDecodeError
  | singleValue
  | format
deriving DecidableEq, Repr

/-- `MaxAge::decode`: a single value read as `u32` and re-encoded
canonically. -/
def MaxAge.decode (values : List Value) : Except MaxAgeDecodeError MaxAge :=
  match single values with
  | .error _ => .error .singleValue
  | .ok value =>
    match value.u32 with
    | .error _ => .error .format
    | .ok v => .ok ⟨Value.fromU32 v⟩

/-- `MaxAge::number` (14). -/
def MaxAge.number : Number := Number.fromValueOrPanic 14

/-- `MaxAge::encode`. -/
def MaxAge.encode (m : MaxAge) (deltaSum : Delta) : List Nat :=
  (DecodedOption.mk MaxAge.number [m.value]).encode deltaSum

/-- `proxy_scheme.rs`. -/
structure ProxyScheme where
  value : Value
deriving DecidableEq, Repr

inductive ProxySchemeError
  | format
  | singleValue
  | length (n : Nat)
deriving DecidableEq, Repr

/-- `ProxyScheme::decode`: one UTF-8 value of `1..=255` bytes. -/
def ProxyScheme.decode (values : List Value) :
    Except ProxySchemeError ProxyScheme :=
  match values with
  | [value] =>
    if ¬ value.validAsString then .error .format
    else if value.len > 255 ∨ value.len < 1 then .error (.length value.len)
    else .ok ⟨value⟩
  | _ => .error .singleValue

/-- `ProxyScheme::number` (39). -/
def ProxyScheme.number : Number := Number.fromValueOrPanic 39

/-- `ProxyScheme::encode`. -/
def ProxyScheme.encode (p : ProxyScheme) (deltaSum : Delta) : List Nat :=
  (DecodedOption.mk ProxyScheme.number [p.value]).encode deltaSum

/-- `proxy_uri.rs`. -/
structure ProxyUri where
  value : Value
deriving DecidableEq, Repr

inductive ProxyUriError
  | format
  | singleValue
  | length (n : Nat)
deriving DecidableEq, Repr

/-- `ProxyUri::decode`: one UTF-8 value of `1..=1034` bytes. -/
def ProxyUri.decode (values : List Value) : Except ProxyUriError ProxyUri :=
  match values with
  | [value] =>
    if ¬ value.validAsString then .error .format
    else if value.len > 1034 ∨ value.len < 1 then .error (.length value.len)
    else .ok ⟨value⟩
  | _ => .error .singleValue

/-- `ProxyUri::number` (35). -/
def ProxyUri.number : Number := Number.fromValueOrPanic 35

/-- `ProxyUri::encode`. -/
def ProxyUri.encode (p : ProxyUri) (deltaSum : Delta) : List Nat :=
  (DecodedOption.mk ProxyUri.number [p.value]).encode deltaSum

/-- `size1.rs`. -/
structure Size1 where
  value : Value
deriving DecidableEq, Repr

inductive Size1Error
  | singleValue
  | format
deriving DecidableEq, Repr

/-- `Size1::decode`: a single value read as `u32` and re-encoded
canonically. -/
def Size1.decode (values : List Value) : Except Size1Error Size1 :=
  match single values with
  | .error _ => .error .singleValue
  | .ok value =>
    match value.u32 with
    | .error _ => .error .format
    | .ok v => .ok ⟨Value.fromU32 v⟩

/-- `Size1::number` (60). -/
def Size1.number : Number := Number.fromValueOrPanic 60

/-- `Size1::encode`. -/
def Size1.encode (s : Size1) (deltaSum : Delta) : List Nat :=
  (DecodedOption.mk Size1.number [s.value]).encode deltaSum

/-! ### The option dispatch layer (src/coapium/src/codec/option/mod.rs) -/

/-- `option/mod.rs` `Option`: the recognized options.  Renamed
`COption` to avoid shadowing Lean's `Option`. -/
inductive COption
  | accept (o : Accept)
  | contentFormat (o : ContentFormat)
  | eTag (o : ETag)
  | ifMatch (o : IfMatch)
  | ifNoneMatch (o : IfNoneMatch)
  | locationPath (o : LocationPath)
  | locationQuery (o : LocationQuery)
  | maxAge (o : MaxAge)
  | proxyScheme (o : ProxyScheme)
  | proxyUri (o : ProxyUri)
  | size1 (o : Size1)
  | uriHost (o : UriHost)
  | uriPath (o : UriPath)
  | uriPort (o : UriPort)
  | uriQuery (o : UriQuery)
deriving DecidableEq, Repr

/-- `option/mod.rs` `Error`. -/
inductive COptionError
  | accept (e : AcceptError)
  | contentFormat (e : ContentFormatError)
  | eTag (e : ETagError)
  | ifMatch (e : IfMatchError)
  | ifNoneMatch (e : IfNoneMatchError)
  | locationPath (e : LocationPathError)
  | locationQuery (e : LocationQueryError)
  | maxAge (e : MaxAgeDecodeError)
  | proxyScheme (e : ProxySchemeError)
  | proxyUri (e : ProxyUriError)
  | size1 (e : Size1Error)
  | uriHost (e : UriHostDecodeError)
  | uriPath (e : UriPathError)
  | uriPort (e : UriPortDecodeError)
  | uriQuery (e : UriQueryError)
  | unrecognized (n : Number)
  | delta (e : DeltaDecodeError)
  | headerMissing
  | length (e : LengthDecodeError)
  | value (e : ValueError)
deriving DecidableEq, Repr

/-- `Option::decode_unrecognized`: unknown critical numbers fail,
unknown elective numbers are dropped (`Ok(None)`). -/
def COption.decodeUnrecognized (option : DecodedOption) :
    Except COptionError (Option COption) :=
  if option.number.class'.isCritical then .error (.unrecognized option.number)
  else .ok none

/-- `Option::decode`: dispatch on the option number over the
recognized catalogue, in the source's order, falling back to
`decode_unrecognized`. -/
def COption.decode (option : DecodedOption) :
    Except COptionError (Option COption) :=
  let n := option.number
  if n = Accept.number then
    match Accept.decode option.values with
    | .error e => .error (.accept e)
    | .ok o => .ok (some (.accept o))
  else if n = ContentFormat.number then
    match ContentFormat.decode option.values with
    | .error e => .error (.contentFormat e)
    | .ok o => .ok (some (.contentFormat o))
  else if n = ETag.number then
    match ETag.decode option.values with
    | .error e => .error (.eTag e)
    | .ok o => .ok (some (.eTag o))
  else if n = IfMatch.number then
    match IfMatch.decode option.values with
    | .error e => .error (.ifMatch e)
    | .ok o => .ok (some (.ifMatch o))
  else if n = IfNoneMatch.number then
    match IfNoneMatch.decode option.values with
    | .error e => .error (.ifNoneMatch e)
    | .ok o => .ok (some (.ifNoneMatch o))
  else if n = LocationPath.number then
    match LocationPath.decode option.values with
    | .error e => .error (.locationPath e)
    | .ok o => .ok (some (.locationPath o))
  else if n = LocationQuery.number then
    match LocationQuery.decode option.values with
    | .error e => .error (.locationQuery e)
    | .ok o => .ok (some (.locationQuery o))
  else if n = MaxAge.number then
    match MaxAge.decode option.values with
    | .error e => .error (.maxAge e)
    | .ok o => .ok (some (.maxAge o))
  else if n = ProxyScheme.number then
    match ProxyScheme.decode option.values with
    | .error e => .error (.proxyScheme e)
    | .ok o => .ok (some (.proxyScheme o))
  else if n = ProxyUri.number then
    match ProxyUri.decode option.values with
    | .error e => .error (.proxyUri e)
    | .ok o => .ok (some (.proxyUri o))
  else if n = Size1.number then
    match Size1.decode option.values with
    | .error e => .error (.size1 e)
    | .ok o => .ok (some (.size1 o))
  else if n = UriHost.number then
    match UriHost.decode option.values with
    | .error e => .error (.uriHost e)
    | .ok o => .ok (some (.uriHost o))
  else if n = UriPath.number then
    match UriPath.decode option.values with
    | .error e => .error (.uriPath e)
    | .ok o => .ok (some (.uriPath o))
  else if n = UriPort.number then
    match UriPort.decode option.values with
    | .error e => .error (.uriPort e)
    | .ok o => .ok (some (.uriPort o))
  else if n = UriQuery.number then
    match UriQuery.decode option.values with
    | .error e => .error (.uriQuery e)
    | .ok o => .ok (some (.uriQuery o))
  else COption.decodeUnrecognized option

/-- `Option::number`. -/
def COption.number : COption → Number
  | .accept _ => Accept.number
  | .contentFormat _ => ContentFormat.number
  | .eTag _ => ETag.number
  | .ifMatch _ => IfMatch.number
  | .ifNoneMatch _ => IfNoneMatch.number
  | .locationPath _ => LocationPath.number
  | .locationQuery _ => LocationQuery.number
  | .maxAge _ => MaxAge.number
  | .proxyScheme _ => ProxyScheme.number
  | .proxyUri _ => ProxyUri.number
  | .size1 _ => Size1.number
  | .uriHost _ => UriHost.number
  | .uriPath _ => UriPath.number
  | .uriPort _ => UriPort.number
  | .uriQuery _ => UriQuery.number

/-- `Option::encode`. -/
def COption.encode (o : COption) (deltaSum : Delta) : List Nat :=
  match o with
  | .accept o => o.encode deltaSum
  | .contentFormat o => o.encode deltaSum
  | .eTag o => o.encode deltaSum
  | .ifMatch o => o.encode deltaSum
  | .ifNoneMatch o => o.encode deltaSum
  | .locationPath o => o.encode deltaSum
  | .locationQuery o => o.encode deltaSum
  | .maxAge o => o.encode deltaSum
  | .proxyScheme o => o.encode deltaSum
  | .proxyUri o => o.encode deltaSum
  | .size1 o => o.encode deltaSum
  | .uriHost o => o.encode deltaSum
  | .uriPath o => o.encode deltaSum
  | .uriPort o => o.encode deltaSum
  | .uriQuery o => o.encode deltaSum

/-! ### Options (src/coapium/src/codec/options.rs) -/

/-- `options.rs` `Options`: the decoded options of a message. -/
structure Options where
  options : List COption
deriving DecidableEq, Repr

inductive OptionsError
  | option (e : COptionError)
  | decodedOptions (e : DecodedOptionsError)
deriving DecidableEq, Repr

/-- `Options::new`. -/
def Options.new : Options := ⟨[]⟩

/-- The fail-fast `collect::<Result<Vec<_>, _>>` of `Options::decode`
over `Option::decode`. -/
def Options.decodeList : List DecodedOption → Except COptionError (List (Option COption))
  | [] => .ok []
  | d :: ds =>
    match COption.decode d with
    | .error e => .error e
    | .ok o =>
      match Options.decodeList ds with
      | .error e => .error e
      | .ok os => .ok (o :: os)

/-- `Options::decode`: decode every grouped option, then drop the
`None`s left by elective unrecognized options. -/
def Options.decode (options : DecodedOptions) : Except OptionsError Options :=
  match Options.decodeList options.options with
  | .error e => .error (.option e)
  | .ok decoded => .ok ⟨decoded.filterMap id⟩

/-- Insertion into a number-sorted option list, before the first
option with a number not below the inserted one (so that the overall
sort is stable, like Rust's `sort_by_key`). -/
def insertByNumber (o : COption) : List COption → List COption
  | [] => [o]
  | x :: xs =>
    if x.number.value.value < o.number.value.value then x :: insertByNumber o xs
    else o :: x :: xs

/-- Stable sort of options by number (`sort_by_key(Option::number)`). -/
def sortByNumber : List COption → List COption
  | [] => []
  | x :: xs => insertByNumber x (sortByNumber xs)

/-- `Options::encode`: stable-sort by option number, then fold the
delta encoding. -/
def Options.encode (o : Options) : List Nat :=
  let sorted := sortByNumber o.options
  (sorted.foldl
    (fun (acc : Delta × List (List Nat)) o =>
      (o.number.value, acc.2 ++ [o.encode acc.1]))
    (Delta.fromValue 0, [])).2.flatten

/-- `Options::parse`. -/
def Options.parse (bytes : List Nat) :
    Option (Except OptionsError (List Nat × Options)) :=
  match DecodedOptions.parse bytes with
  | none => none
  | some (.error e) => some (.error (.decodedOptions e))
  | some (.ok (rest, decodedOptions)) =>
    some ((Options.decode decodedOptions).map fun o => (rest, o))

/-! ### Message layer (src/coapium/src/codec/message) -/

/-- `message/reliability.rs`. -/
inductive Reliability
  | nonConfirmable
  | confirmable
deriving DecidableEq, Repr

/-- `Reliability::is_confirmable`. -/
def Reliability.isConfirmable : Reliability → Bool
  | .confirmable => true
  | .nonConfirmable => false

/-- `From<Reliability> for MessageType`. -/
def Reliability.toMessageType : Reliability → MessageType
  | .nonConfirmable => .nonConfirmable
  | .confirmable => .confirmable

/-- `message/mod.rs` `FormatError`. -/
inductive FormatError
  | tokenLengthNonZero
  | excessiveData
  | invalidTypeAndCode (t : MessageType) (c : Code)
deriving DecidableEq, Repr

/-- `message/mod.rs` `Error`. -/
inductive MessageError
  | version (e : VersionError)
  | format (e : FormatError)
  | headerMissing
  | dataLength
  | encodedOption (e : EncodedOptionError)
  | option (e : COptionError)
  | options (e : OptionsError)
  | payload (e : PayloadError)
  | token (e : TokenError)
  | tokenLength (e : TokenLengthError)
  | header (e : HeaderError)
deriving DecidableEq, Repr

/-- `message/acknowledgement.rs`: an empty ACK. -/
structure Acknowledgement where
  messageId : MessageId
deriving DecidableEq, Repr

/-- `Acknowledgement::decode`: zero-length token, no further bytes. -/
def Acknowledgement.decode (messageId : MessageId) (tokenLength : TokenLength)
    (remainingBytes : List Nat) : Except MessageError Acknowledgement :=
  if ¬ tokenLength.isZeroLength then .error (.format .tokenLengthNonZero)
  else if ¬ remainingBytes.isEmpty then .error (.format .excessiveData)
  else .ok ⟨messageId⟩

/-- `Acknowledgement::encode`. -/
def Acknowledgement.encode (a : Acknowledgement) : List Nat :=
  (Header.new .acknowledgement TokenLength.zeroLength .empty a.messageId).encode

/-- `Acknowledgement::new`. -/
def Acknowledgement.new (messageId : MessageId) : Acknowledgement := ⟨messageId⟩

/-- `message/reset.rs`: an empty RST. -/
structure Reset where
  messageId : MessageId
deriving DecidableEq, Repr

/-- `Reset::decode`. -/
def Reset.decode (messageId : MessageId) (tokenLength : TokenLength)
    (remainingBytes : List Nat) : Except MessageError Reset :=
  if ¬ tokenLength.isZeroLength then .error (.format .tokenLengthNonZero)
  else if ¬ remainingBytes.isEmpty then .error (.format .excessiveData)
  else .ok ⟨messageId⟩

/-- `Reset::encode`. -/
def Reset.encode (r : Reset) : List Nat :=
  (Header.new .reset (Token.empty.encode).1 .empty r.messageId).encode

/-- `Reset::from_message_id`. -/
def Reset.fromMessageId (messageId : MessageId) : Reset := ⟨messageId⟩

/-- `message/piggyback.rs`: an ACK carrying a response. -/
structure Piggyback where
  responseCode : ResponseCode
  messageId : MessageId
  token : Token
  options : Options
  payload : Payload
deriving DecidableEq, Repr

/-- `Piggyback::decode`: token, options, payload. -/
def Piggyback.decode (header : Header) (responseCode : ResponseCode)
    (rest : List Nat) : Option (Except MessageError Piggyback) :=
  match Token.parse header.tokenLength rest with
  | .error e => some (.error (.token e))
  | .ok (rest, token) =>
    match Options.parse rest with
    | none => none
    | some (.error e) => some (.error (.options e))
    | some (.ok (rest, options)) =>
      match Payload.decode rest with
      | .error e => some (.error (.payload e))
      | .ok payload =>
        some (.ok { messageId := header.messageId, responseCode, token, options, payload })

/-- `Piggyback::encode`. -/
def Piggyback.encode (p : Piggyback) : List Nat :=
  let (tokenLength, encodedToken) := p.token.encode
  (Header.new .acknowledgement tokenLength (.response p.responseCode) p.messageId).encode ++
    encodedToken ++ p.options.encode ++ p.payload.encode

/-- `Piggyback::new`. -/
def Piggyback.new (token : Token) (responseCode : ResponseCode)
    (messageId : MessageId) (options : Options) (payload : Payload) : Piggyback :=
  { token, responseCode, messageId, options, payload }

/-- `message/response.rs`: a CON or NON response message. -/
structure Response where
  reliability : Reliability
  messageId : MessageId
  token : Token
  responseCode : ResponseCode
  options : Options
  payload : Payload
deriving DecidableEq, Repr

/-- `Response::decode`. -/
def Response.decode (reliability : Reliability) (tokenLength : TokenLength)
    (responseCode : ResponseCode) (messageId : MessageId) (rest : List Nat) :
    Option (Except MessageError Response) :=
  match Token.parse tokenLength rest with
  | .error e => some (.error (.token e))
  | .ok (rest, token) =>
    match Options.parse rest with
    | none => none
    | some (.error e) => some (.error (.options e))
    | some (.ok (rest, options)) =>
      match Payload.decode rest with
      | .error e => some (.error (.payload e))
      | .ok payload =>
        some (.ok { reliability, responseCode, messageId, token, options, payload })

/-- `Response::encode`. -/
def Response.encode (r : Response) : List Nat :=
  let (tokenLength, encodedToken) := r.token.encode
  (Header.new r.reliability.toMessageType tokenLength
      (.response r.responseCode) r.messageId).encode ++
    encodedToken ++ r.options.encode ++ r.payload.encode

/-- `Response::new`. -/
def Response.new (reliability : Reliability) (token : Token)
    (responseCode : ResponseCode) (messageId : MessageId) (options : Options)
    (payload : Payload) : Response :=
  { reliability, responseCode, messageId, token, options, payload }

/-- `message/reserved.rs`: messages with a reserved code, retained but
never re-encoded (the source defines no `encode` for them). -/
structure Reserved where
  reliability : Reliability
  code : ReservedCode
  messageId : MessageId
  token : Token
  options : Options
  payload : Payload
deriving DecidableEq, Repr

/-- `Reserved::decode`. -/
def Reserved.decode (reliability : Reliability) (tokenLength : TokenLength)
    (reservedCode : ReservedCode) (messageId : MessageId)
    (remainingBytes : List Nat) : Option (Except MessageError Reserved) :=
  match Token.parse tokenLength remainingBytes with
  | .error e => some (.error (.token e))
  | .ok (rest, token) =>
    match Options.parse rest with
    | none => none
    | some (.error e) => some (.error (.options e))
    | some (.ok (rest, options)) =>
      match Payload.decode rest with
      | .error e => some (.error (.payload e))
      | .ok payload =>
        some (.ok { reliability, code := reservedCode, messageId, token, options, payload })

/-- `message/method.rs`: request method with attached payload. -/
inductive Method
  | get
  | post (p : Payload)
  | put (p : Payload)
  | delete
deriving DecidableEq, Repr

/-- `Method::encode`. -/
def Method.encode : Method → Code × Payload
  | .get => (.request .get, Payload.empty)
  | .post payload => (.request .post, payload)
  | .put payload => (.request .put, payload)
  | .delete => (.request .delete, Payload.empty)

/-- `message/get_options.rs`: the GET allow-list wrapper. -/
structure GetOptions where
  options : Options
deriving DecidableEq, Repr

inductive GetOptionsError
  | options (e : OptionsError)
  | unrecognized (n : Number)
deriving DecidableEq, Repr

/-- `GetOptions::recognized_options`. -/
def GetOptions.recognizedOptions : List Number :=
  [Accept.number, ETag.number, ProxyScheme.number, ProxyUri.number,
    UriHost.number, UriPath.number, UriPort.number, UriQuery.number]

/-- `GetOptions::from_options`: rejects critical options outside the
allow-list. -/
def GetOptions.fromOptions (options : Options) :
    Except GetOptionsError GetOptions :=
  match (options.options.filter fun o => o.number.class'.isCritical).find?
      (fun o => ¬ GetOptions.recognizedOptions.contains o.number) with
  | some o => .error (.unrecognized o.number)
  | none => .ok ⟨options⟩

/-- `GetOptions::new`. -/
def GetOptions.new : GetOptions := ⟨Options.new⟩

/-- `GetOptions::encode`. -/
def GetOptions.encode (g : GetOptions) : List Nat :=
  g.options.encode

/-- `GetOptions::parse`. -/
def GetOptions.parse (bytes : List Nat) :
    Option (Except GetOptionsError (List Nat × GetOptions)) :=
  match Options.parse bytes with
  | none => none
  | some (.error e) => some (.error (.options e))
  | some (.ok (rest, options)) =>
    some ((GetOptions.fromOptions options).map fun g => (rest, g))

/-- `message/get.rs`: a GET request message. -/
structure Get where
  messageId : MessageId
  reliability : Reliability
  token : Token
  options : GetOptions
deriving DecidableEq, Repr

inductive GetError
  | token (e : TokenError)
  | options (e : GetOptionsError)
  | residualData
deriving DecidableEq, Repr

/-- `Get::new`. -/
def Get.new (messageId : MessageId) (reliability : Reliability) (token : Token)
    (options : GetOptions) : Get :=
  { messageId, reliability, token, options }

/-- `Get::decode`. -/
def Get.decode (messageId : MessageId) (tokenLength : TokenLength)
    (reliability : Reliability) (remainingBytes : List Nat) :
    Option (Except GetError Get) :=
  match Token.parse tokenLength remainingBytes with
  | .error e => some (.error (.token e))
  | .ok (rest, token) =>
    match GetOptions.parse rest with
    | none => none
    | some (.error e) => some (.error (.options e))
    | some (.ok (rest, options)) =>
      if ¬ rest.isEmpty then some (.error .residualData)
      else some (.ok (Get.new messageId reliability token options))

/-- `Get::encode`. -/
def Get.encode (g : Get) : List Nat :=
  let (tokenLength, token) := g.token.encode
  (Header.new g.reliability.toMessageType tokenLength
      (Method.get.encode).1 g.messageId).encode ++
    token ++ g.options.encode

/-- `message/post_options.rs`: the POST allow-list wrapper. -/
structure PostOptions where
  options : Options
deriving DecidableEq, Repr

inductive PostOptionsError
  | options (e : OptionsError)
  | unrecognized (n : Number)
deriving DecidableEq, Repr

/-- `PostOptions::recognized_options`. -/
def PostOptions.recognizedOptions : List Number :=
  [ContentFormat.number, UriHost.number, UriPath.number, UriPort.number,
    UriQuery.number]

/-- `PostOptions::from_options`. -/
def PostOptions.fromOptions (options : Options) :
    Except PostOptionsError PostOptions :=
  match (options.options.filter fun o => o.number.class'.isCritical).find?
      (fun o => ¬ PostOptions.recognizedOptions.contains o.number) with
  | some o => .error (.unrecognized o.number)
  | none => .ok ⟨options⟩

/-- `PostOptions::new`. -/
def PostOptions.new : PostOptions := ⟨Options.new⟩

/-- `PostOptions::encode`. -/
def PostOptions.encode (p : PostOptions) : List Nat :=
  p.options.encode

/-- `message/post.rs`: a POST request message. -/
structure Post where
  messageId : MessageId
  reliability : Reliability
  token : Token
  options : PostOptions
  payload : Payload
deriving DecidableEq, Repr

/-- `Post::encode`. -/
def Post.encode (p : Post) : List Nat :=
  let (tokenLength, token) := p.token.encode
  (Header.new p.reliability.toMessageType tokenLength
      ((Method.post Payload.empty).encode).1 p.messageId).encode ++
    token ++ p.options.encode ++ p.payload.encode

/-- `message/put_options.rs`: same allow-list as POST. -/
structure PutOptions where
  options : Options
deriving DecidableEq, Repr

/-- `PutOptions::recognized_options`. -/
def PutOptions.recognizedOptions : List Number :=
  [ContentFormat.number, UriHost.number, UriPath.number, UriPort.number,
    UriQuery.number]

/-- `PutOptions::new`. -/
def PutOptions.new : PutOptions := ⟨Options.new⟩

/-- `PutOptions::encode`. -/
def PutOptions.encode (p : PutOptions) : List Nat :=
  p.options.encode

/-- `message/put.rs`: a PUT request message. -/
structure Put where
  messageId : MessageId
  reliability : Reliability
  token : Token
  options : PutOptions
  payload : Payload
deriving DecidableEq, Repr

/-- `Put::encode`. -/
def Put.encode (p : Put) : List Nat :=
  let (tokenLength, token) := p.token.encode
  (Header.new p.reliability.toMessageType tokenLength
      ((Method.put Payload.empty).encode).1 p.messageId).encode ++
    token ++ p.options.encode ++ p.payload.encode

/-- Modelled from the spec: `message/delete_options.rs` is declared in
`message/mod.rs` but the file is not present under `src/`.  Per the
spec (§4.4) each request variant holds a method-specific option set
that rejects critical options not in its allow-list; modelled after
the sibling option sets with the URI options allowed. -/
structure DeleteOptions where
  options : Options
deriving DecidableEq, Repr

/-- Modelled from the spec: the DELETE allow-list (URI options). -/
def DeleteOptions.recognizedOptions : List Number :=
  [UriHost.number, UriPath.number, UriPort.number, UriQuery.number]

/-- Modelled from the spec: `DeleteOptions::new`. -/
def DeleteOptions.new : DeleteOptions := ⟨Options.new⟩

/-- Modelled from the spec: `DeleteOptions::encode`, like the sibling
option sets encodes the wrapped options. -/
def DeleteOptions.encode (d : DeleteOptions) : List Nat :=
  d.options.encode

/-- `message/delete.rs`: a DELETE request message. -/
structure Delete where
  messageId : MessageId
  reliability : Reliability
  token : Token
  options : DeleteOptions
deriving DecidableEq, Repr

/-- `Delete::encode`. -/
def Delete.encode (d : Delete) : List Nat :=
  let (tokenLength, token) := d.token.encode
  (Header.new d.reliability.toMessageType tokenLength
      (Method.delete.encode).1 d.messageId).encode ++
    token ++ d.options.encode

/-- `message/request.rs`: decoded request messages.  Only the GET
variant is inhabited; the others carry `()` in the source. -/
inductive Request
  | get (g : Get)
  | post
  | put
  | delete
deriving DecidableEq, Repr

/-- `Request::encode`: only GET is implemented; the other arms are
`todo!()` (modelled as the panic value `none` is not needed here since
no claim encodes them; they are mapped to the empty encoding of the
GET-only source never reached by the verified claims). -/
def Request.encode : Request → List Nat
  | .get g => g.encode
  | _ => []

/-- `Request::decode` is `todo!()` in the source: decoding any request
message panics.  Modelled as the panic value `none`. -/
def Request.decode (_header : Header) (_methodCode : MethodCode)
    (_reliability : Reliability) (_remainingBytes : List Nat) :
    Option (Except MessageError Request) :=
  none

/-- `message/mod.rs` `Message`: the decoded message variants. -/
inductive Message
  | acknowledgement (a : Acknowledgement)
  | piggyback (p : Piggyback)
  | request (r : Request)
  | reset (r : Reset)
  | response (r : Response)
  | reserved (r : Reserved)
deriving DecidableEq, Repr

/-- `Message::decode_acknowledgement`. -/
def Message.decodeAcknowledgement (header : Header) (bytes : List Nat) :
    Option (Except MessageError Message) :=
  match header.code with
  | .empty =>
    some ((Acknowledgement.decode header.messageId header.tokenLength bytes).map
      Message.acknowledgement)
  | .response responseCode =>
    match Piggyback.decode header responseCode bytes with
    | none => none
    | some r => some (r.map Message.piggyback)
  | code => some (.error (.format (.invalidTypeAndCode .acknowledgement code)))

/-- `Message::decode_confirmable`. -/
def Message.decodeConfirmable (header : Header) (bytes : List Nat) :
    Option (Except MessageError Message) :=
  match header.code with
  | .request methodCode =>
    match Request.decode header methodCode .confirmable bytes with
    | none => none
    | some r => some (r.map Message.request)
  | .response responseCode =>
    match Response.decode .confirmable header.tokenLength responseCode
        header.messageId bytes with
    | none => none
    | some r => some (r.map Message.response)
  | .reserved reservedCode =>
    match Reserved.decode .confirmable header.tokenLength reservedCode
        header.messageId bytes with
    | none => none
    | some r => some (r.map Message.reserved)
  | code => some (.error (.format (.invalidTypeAndCode .confirmable code)))

/-- `Message::decode_non_confirmable`. -/
def Message.decodeNonConfirmable (header : Header) (bytes : List Nat) :
    Option (Except MessageError Message) :=
  match header.code with
  | .request methodCode =>
    match Request.decode header methodCode .nonConfirmable bytes with
    | none => none
    | some r => some (r.map Message.request)
  | .response responseCode =>
    match Response.decode .nonConfirmable header.tokenLength responseCode
        header.messageId bytes with
    | none => none
    | some r => some (r.map Message.response)
  | .reserved reservedCode =>
    match Reserved.decode .nonConfirmable header.tokenLength reservedCode
        header.messageId bytes with
    | none => none
    | some r => some (r.map Message.reserved)
  | code => some (.error (.format (.invalidTypeAndCode .nonConfirmable code)))

/-- `Message::decode_reset`. -/
def Message.decodeReset (header : Header) (bytes : List Nat) :
    Option (Except MessageError Message) :=
  match header.code with
  | .empty =>
    some ((Reset.decode header.messageId header.tokenLength bytes).map Message.reset)
  | code => some (.error (.format (.invalidTypeAndCode .reset code)))

/-- `Message::decode`: parse the header, then dispatch on the message
type.  `none` models a panic (in particular, the `todo!()` in
`Request::decode`). -/
def Message.decode (bytes : List Nat) : Option (Except MessageError Message) :=
  match Header.parse bytes with
  | .error e => some (.error (.header e))
  | .ok (bytes, header) =>
    match header.messageType with
    | .acknowledgement => Message.decodeAcknowledgement header bytes
    | .confirmable => Message.decodeConfirmable header bytes
    | .nonConfirmable => Message.decodeNonConfirmable header bytes
    | .reset => Message.decodeReset header bytes

end Codec

namespace Protocol

/-! ## Protocol layer (src/coapium/src/protocol)

`std::time::Duration` and the `f32` factors multiplied into it are
modelled as unreduced fractions of integers (`Frac`, in seconds), with
exact arithmetic; `Instant` (`created_at`, never read by any modelled
operation) is omitted from the transaction records. -/

/-- An unreduced fraction `num / den`, standing in for
`std::time::Duration` and the `f32` factors.  Kept unreduced so that
all arithmetic is plain integer arithmetic; no verified claim inspects
a duration's numeric value. -/
structure Frac where
  num : Int
  den : Int
deriving DecidableEq, Repr

/-- Embedding of naturals. -/
def Frac.ofNat (n : Nat) : Frac := ⟨n, 1⟩

instance (n : Nat) : OfNat Frac n := ⟨Frac.ofNat n⟩

instance : Add Frac := ⟨fun a b => ⟨a.num * b.den + b.num * a.den, a.den * b.den⟩⟩

instance : Sub Frac := ⟨fun a b => ⟨a.num * b.den - b.num * a.den, a.den * b.den⟩⟩

instance : Mul Frac := ⟨fun a b => ⟨a.num * b.num, a.den * b.den⟩⟩

/-- `transmission_parameters.rs` `AckTimeout` (seconds). -/
structure AckTimeout where
  value : Frac
deriving DecidableEq, Repr

/-- `AckTimeout::default` (2 s). -/
def AckTimeout.default : AckTimeout := ⟨2⟩

/-- `transmission_parameters.rs` `AckRandomFactor`. -/
structure AckRandomFactor where
  value : Frac
deriving DecidableEq, Repr

/-- `AckRandomFactor::default` (1.5). -/
def AckRandomFactor.default : AckRandomFactor := ⟨⟨3, 2⟩⟩

/-- `transmission_parameters.rs` `MaxRetransmit`. -/
structure MaxRetransmit where
  value : Nat
deriving DecidableEq, Repr

/-- `MaxRetransmit::default` (4). -/
def MaxRetransmit.default : MaxRetransmit := ⟨4⟩

/-- `transmission_parameters.rs` `InitialRetransmissionFactor`: the
per-transaction jitter factor in `[0, 1]`. -/
structure InitialRetransmissionFactor where
  value : Frac
deriving DecidableEq, Repr

/-- `transmission_parameters.rs` `ProbingRatePerSecond`. -/
structure ProbingRatePerSecond where
  value : Frac
deriving DecidableEq, Repr

/-- `transmission_parameters.rs` `ConfirmableParameters`. -/
structure ConfirmableParameters where
  ackTimeout : AckTimeout
  ackRandomFactor : AckRandomFactor
  initialRetransmissionFactor : InitialRetransmissionFactor
  maxRetransmit : MaxRetransmit
deriving DecidableEq, Repr

/-- `ConfirmableParameters::default`: RFC defaults with a chosen
jitter factor. -/
def ConfirmableParameters.default (f : InitialRetransmissionFactor) :
    ConfirmableParameters :=
  { ackTimeout := AckTimeout.default
    ackRandomFactor := AckRandomFactor.default
    initialRetransmissionFactor := f
    maxRetransmit := MaxRetransmit.default }

/-- `ConfirmableParameters::min_ack_timeout`. -/
def ConfirmableParameters.minAckTimeout (p : ConfirmableParameters) : Frac :=
  p.ackTimeout.value

/-- `ConfirmableParameters::max_ack_timeout`. -/
def ConfirmableParameters.maxAckTimeout (p : ConfirmableParameters) : Frac :=
  p.ackTimeout.value * p.ackRandomFactor.value

/-- `ConfirmableParameters::max_transmit_span`:
`ACK_TIMEOUT x ACK_RANDOM_FACTOR x (MAX_RETRANSMIT^2 - 1)`. -/
def ConfirmableParameters.maxTransmitSpan (p : ConfirmableParameters) : Frac :=
  p.ackTimeout.value * p.ackRandomFactor.value * Frac.ofNat (p.maxRetransmit.value ^ 2 - 1)

/-- `ConfirmableParameters::max_transmit_wait`:
`ACK_TIMEOUT x ACK_RANDOM_FACTOR x ((MAX_RETRANSMIT+1)^2 - 1)`. -/
def ConfirmableParameters.maxTransmitWait (p : ConfirmableParameters) : Frac :=
  p.ackTimeout.value * p.ackRandomFactor.value *
    Frac.ofNat ((p.maxRetransmit.value + 1) ^ 2 - 1)

/-- `ConfirmableParameters::processing_delay` (= ACK_TIMEOUT). -/
def ConfirmableParameters.processingDelay (p : ConfirmableParameters) : Frac :=
  p.ackTimeout.value

/-- `ConfirmableParameters::max_latency` (100 s). -/
def ConfirmableParameters.maxLatency (_ : ConfirmableParameters) : Frac := Frac.ofNat 100

/-- `ConfirmableParameters::exchange_lifetime`. -/
def ConfirmableParameters.exchangeLifetime (p : ConfirmableParameters) : Frac :=
  p.maxTransmitSpan + Frac.ofNat 2 * p.maxLatency + p.processingDelay

/-- `transmission_parameters.rs` `NonConfirmableParameters`. -/
structure NonConfirmableParameters where
  probingRatePerSecond : Option ProbingRatePerSecond
  ackTimeout : AckTimeout
  ackRandomFactor : AckRandomFactor
  maxRetransmit : MaxRetransmit
deriving DecidableEq, Repr

/-- `NonConfirmableParameters::default` (no probing rate). -/
def NonConfirmableParameters.default : NonConfirmableParameters :=
  { probingRatePerSecond := none
    ackTimeout := AckTimeout.default
    ackRandomFactor := AckRandomFactor.default
    maxRetransmit := MaxRetransmit.default }

/-- `NonConfirmableParameters::max_transmit_span`. -/
def NonConfirmableParameters.maxTransmitSpan (p : NonConfirmableParameters) : Frac :=
  p.ackTimeout.value * p.ackRandomFactor.value * Frac.ofNat (p.maxRetransmit.value ^ 2 - 1)

/-- `NonConfirmableParameters::non_lifetime`. -/
def NonConfirmableParameters.nonLifetime (p : NonConfirmableParameters) : Frac :=
  p.maxTransmitSpan + Frac.ofNat 100

/-- `protocol/reliability.rs`. -/
inductive Reliability
  | confirmable (p : ConfirmableParameters)
  | nonConfirmable (p : NonConfirmableParameters)
deriving DecidableEq, Repr

/-- `From<&Reliability> for message::Reliability`. -/
def Reliability.toMessage : Reliability → Codec.Reliability
  | .confirmable _ => .confirmable
  | .nonConfirmable _ => .nonConfirmable

/-! ### Timeouts (src/coapium/src/protocol/timeout.rs) -/

/-- `RetransmissionTimeout`: duration plus owning message id. -/
structure RetransmissionTimeout where
  timeout : Frac
  messageId : Codec.MessageId
deriving DecidableEq, Repr

/-- `RetransmissionTimeout::new`: `min + (max - min) x jitter`. -/
def RetransmissionTimeout.new (messageId : Codec.MessageId)
    (p : ConfirmableParameters) : RetransmissionTimeout :=
  let variableRange := p.maxAckTimeout - p.minAckTimeout
  let range := variableRange * p.initialRetransmissionFactor.value
  ⟨p.minAckTimeout + range, messageId⟩

/-- `RetransmissionTimeout::next`: binary exponential backoff. -/
def RetransmissionTimeout.next (t : RetransmissionTimeout) : RetransmissionTimeout :=
  { t with timeout := t.timeout * Frac.ofNat 2 }

/-- `ExchangeLifetimeTimeout`. -/
structure ExchangeLifetimeTimeout where
  timeout : Frac
  messageId : Codec.MessageId
deriving DecidableEq, Repr

/-- `ExchangeLifetimeTimeout::new`. -/
def ExchangeLifetimeTimeout.new (messageId : Codec.MessageId)
    (p : ConfirmableParameters) : ExchangeLifetimeTimeout :=
  ⟨p.exchangeLifetime, messageId⟩

/-- `NonRetransmissionTimeout`. -/
structure NonRetransmissionTimeout where
  timeout : Frac
  messageId : Codec.MessageId
deriving DecidableEq, Repr

/-- `NonRetransmissionTimeout::new`: probing rate times datagram size. -/
def NonRetransmissionTimeout.new (messageId : Codec.MessageId) (dataLen : Nat)
    (probingRatePerSecond : ProbingRatePerSecond) : NonRetransmissionTimeout :=
  ⟨probingRatePerSecond.value * Frac.ofNat dataLen, messageId⟩

/-- `NonLifetimeTimeout`. -/
structure NonLifetimeTimeout where
  timeout : Frac
  messageId : Codec.MessageId
deriving DecidableEq, Repr

/-- `NonLifetimeTimeout::new`. -/
def NonLifetimeTimeout.new (messageId : Codec.MessageId)
    (p : NonConfirmableParameters) : NonLifetimeTimeout :=
  ⟨p.nonLifetime, messageId⟩

/-- `MaxTransmitWaitTimeout`. -/
structure MaxTransmitWaitTimeout where
  timeout : Frac
  messageId : Codec.MessageId
deriving DecidableEq, Repr

/-- `MaxTransmitWaitTimeout::new`. -/
def MaxTransmitWaitTimeout.new (messageId : Codec.MessageId)
    (p : ConfirmableParameters) : MaxTransmitWaitTimeout :=
  ⟨p.maxTransmitWait, messageId⟩

/-- `effect/timeout.rs` `Timeout`. -/
inductive Timeout
  | exchangeLifetime (t : ExchangeLifetimeTimeout)
  | maxTransmitWait (t : MaxTransmitWaitTimeout)
  | nonLifetime (t : NonLifetimeTimeout)
  | nonRetransmission (t : NonRetransmissionTimeout)
  | retransmission (t : RetransmissionTimeout)
deriving DecidableEq, Repr

/-! ### Responses, errors, effects -/

/-- `protocol/response.rs` `Error`. -/
inductive ResponseError
  | acknowledgementTimeout
  | codec (e : Codec.MessageError)
  | reset
  | timeout
deriving DecidableEq, Repr

/-- `protocol/response.rs` `Response`. -/
structure Response where
  responseCode : Codec.ResponseCode
  options : Codec.Options
  payload : Codec.Payload
deriving DecidableEq, Repr

/-- `From<codec::Response> for Response`. -/
def Response.fromCodec (r : Codec.Response) : Response :=
  { responseCode := r.responseCode, options := r.options, payload := r.payload }

instance {α β : Type} [DecidableEq α] [DecidableEq β] :
    DecidableEq (Except α β) := fun a b =>
  match a, b with
  | .ok x, .ok y => if h : x = y then .isTrue (by rw [h]) else .isFalse (by simp [h])
  | .error x, .error y => if h : x = y then .isTrue (by rw [h]) else .isFalse (by simp [h])
  | .ok _, .error _ => .isFalse (by simp)
  | .error _, .ok _ => .isFalse (by simp)

/-- `effect/mod.rs` `Effect`. -/
inductive Effect
  | createTimeout (t : Timeout)
  | transactionResolved (token : Codec.Token) (result : Except ResponseError Response)
  | transmit (data : List Nat)
deriving DecidableEq, Repr

/-- `Effects` is `Vec<Effect>`. -/
abbrev Effects := List Effect

/-! ### Requests (src/coapium/src/protocol/{get,post,put,delete,ping}.rs) -/

/-- `protocol/get.rs`. -/
structure Get where
  options : Codec.GetOptions
  reliability : Reliability
deriving DecidableEq, Repr

/-- `protocol::Get::encode`. -/
def Get.encode (g : Get) (messageId : Codec.MessageId) (token : Codec.Token) :
    List Nat :=
  (Codec.Get.new messageId g.reliability.toMessage token g.options).encode

/-- `protocol/post.rs`. -/
structure Post where
  options : Codec.PostOptions
  reliability : Reliability
  payload : Codec.Payload
deriving DecidableEq, Repr

/-- `protocol::Post::encode`. -/
def Post.encode (p : Post) (messageId : Codec.MessageId) (token : Codec.Token) :
    List Nat :=
  Codec.Post.encode
    { messageId, reliability := p.reliability.toMessage, token
      options := p.options, payload := p.payload }

/-- `protocol/put.rs`. -/
structure Put where
  options : Codec.PutOptions
  reliability : Reliability
  payload : Codec.Payload
deriving DecidableEq, Repr

/-- `protocol::Put::encode`. -/
def Put.encode (p : Put) (messageId : Codec.MessageId) (token : Codec.Token) :
    List Nat :=
  Codec.Put.encode
    { messageId, reliability := p.reliability.toMessage, token
      options := p.options, payload := p.payload }

/-- `protocol/delete.rs`. -/
structure Delete where
  options : Codec.DeleteOptions
  reliability : Reliability
deriving DecidableEq, Repr

/-- `protocol::Delete::encode`. -/
def Delete.encode (d : Delete) (messageId : Codec.MessageId) (token : Codec.Token) :
    List Nat :=
  Codec.Delete.encode
    { messageId, reliability := d.reliability.toMessage, token
      options := d.options }

/-- `protocol/ping.rs` `Ping`: an empty CON request. -/
structure Ping where
  confirmableParameters : ConfirmableParameters
deriving DecidableEq, Repr

/-- `Ping::encode`: a bare header (empty code) followed by the token. -/
def Ping.encode (_p : Ping) (messageId : Codec.MessageId) (token : Codec.Token) :
    List Nat :=
  let (tokenLength, tokenBytes) := token.encode
  (Codec.Header.new Codec.Reliability.confirmable.toMessageType tokenLength
      .empty messageId).encode ++ tokenBytes

/-- `protocol/new_request.rs` `NewRequest`. -/
inductive NewRequest
  | delete (d : Delete)
  | get (g : Get)
  | ping (p : Ping)
  | post (p : Post)
  | put (p : Put)
deriving DecidableEq, Repr

/-- `NewRequest::encode`. -/
def NewRequest.encode (r : NewRequest) (messageId : Codec.MessageId)
    (token : Codec.Token) : List Nat :=
  match r with
  | .ping request => request.encode messageId token
  | .get request => request.encode messageId token
  | .post request => request.encode messageId token
  | .put request => request.encode messageId token
  | .delete request => request.encode messageId token

/-- `NewRequest::reliability`: a ping is always confirmable. -/
def NewRequest.reliability : NewRequest → Reliability
  | .ping request => .confirmable request.confirmableParameters
  | .get request => request.reliability
  | .post request => request.reliability
  | .put request => request.reliability
  | .delete request => request.reliability

/-- `protocol/ping.rs` `Error`. -/
inductive PingError
  | unexpectedResponse (r : Response)
  | acknowledgementTimeout
  | codec (e : Codec.MessageError)
  | timeout
deriving DecidableEq, Repr

/-- `ping.rs` `into_result`: an RST is the successful ping reply; an
actual response is an error. -/
def pingIntoResult (result : Except ResponseError Response) :
    Except PingError Unit :=
  match result with
  | .ok response => .error (.unexpectedResponse response)
  | .error e =>
    match e with
    | .acknowledgementTimeout => .error .acknowledgementTimeout
    | .codec e => .error (.codec e)
    | .reset => .ok ()
    | .timeout => .error .timeout

/-! ### Transactions (src/coapium/src/protocol/transaction) -/

/-- `transaction/mod.rs` `NSTART` (1). -/
def NSTART : Nat := 1

/-- `transaction/con.rs` `ConfirmableTransaction` (the unused
`created_at: Instant` field is omitted). -/
structure ConfirmableTransaction where
  acknowledged : Bool
  messageId : Codec.MessageId
  requestData : List Nat
  retransmissionCounter : Nat
  token : Codec.Token
  transactionParameters : ConfirmableParameters
deriving DecidableEq, Repr

/-- `ConfirmableTransaction::new`: the request is encoded once and the
bytes retained. -/
def ConfirmableTransaction.new (messageId : Codec.MessageId)
    (token : Codec.Token) (request : NewRequest)
    (parameters : ConfirmableParameters) : ConfirmableTransaction :=
  { acknowledged := false
    messageId
    requestData := request.encode messageId token
    retransmissionCounter := 0
    token
    transactionParameters := parameters }

/-- `ConfirmableTransaction::can_retransmit`:
`retransmission_counter < MAX_RETRANSMIT`. -/
def ConfirmableTransaction.canRetransmit (t : ConfirmableTransaction) : Bool :=
  t.retransmissionCounter < t.transactionParameters.maxRetransmit.value

/-- `ConfirmableTransaction::on_max_transmit_wait`: ignored once
acknowledged, otherwise resolves with a timeout (the `Err` side asks
the caller to remove the transaction). -/
def ConfirmableTransaction.onMaxTransmitWait (t : ConfirmableTransaction) :
    Except Effects Effects :=
  if t.acknowledged then .ok []
  else .error [.transactionResolved t.token (.error .timeout)]

/-- `ConfirmableTransaction::retransmit` (`&mut self`): returns the
result together with the updated transaction.  Ignored once
acknowledged; emits the doubled timeout and a retransmission while the
counter allows; otherwise resolves with a timeout. -/
def ConfirmableTransaction.retransmit (t : ConfirmableTransaction)
    (timeout : RetransmissionTimeout) :
    Except Effects Effects × ConfirmableTransaction :=
  if t.acknowledged then (.ok [], t)
  else if ¬ t.canRetransmit then
    (.error [.transactionResolved t.token (.error .timeout)], t)
  else
    (.ok [.createTimeout (.retransmission timeout.next), .transmit t.requestData],
      { t with retransmissionCounter := t.retransmissionCounter + 1 })

/-- `ConfirmableTransaction::acknowledged` (the setter). -/
def ConfirmableTransaction.setAcknowledged (t : ConfirmableTransaction) :
    ConfirmableTransaction :=
  { t with acknowledged := true }

/-- `ConfirmableTransaction::initial_effects`:
`[ExchangeLifetime, Retransmission, Transmit]`. -/
def ConfirmableTransaction.initialEffects (t : ConfirmableTransaction) : Effects :=
  [.createTimeout (.exchangeLifetime
      (ExchangeLifetimeTimeout.new t.messageId t.transactionParameters)),
    .createTimeout (.retransmission
      (RetransmissionTimeout.new t.messageId t.transactionParameters)),
    .transmit t.requestData]

/-- `transaction/non_con.rs` `NonConfirmableTransacation` (sic; the
unused `created_at` field is omitted). -/
structure NonConfirmableTransacation where
  token : Codec.Token
  messageId : Codec.MessageId
  requestData : List Nat
  transactionParameters : NonConfirmableParameters
deriving DecidableEq, Repr

/-- `NonConfirmableTransacation::new`. -/
def NonConfirmableTransacation.new (messageId : Codec.MessageId)
    (token : Codec.Token) (request : NewRequest)
    (transactionParameters : NonConfirmableParameters) :
    NonConfirmableTransacation :=
  { messageId
    requestData := request.encode messageId token
    token
    transactionParameters }

/-- `non_con.rs` private `timeout`: the probing-rate retransmission
timer, when a probing rate is configured. -/
def NonConfirmableTransacation.timeout (t : NonConfirmableTransacation) :
    Option NonRetransmissionTimeout :=
  match t.transactionParameters.probingRatePerSecond with
  | some rate => some (NonRetransmissionTimeout.new t.messageId t.requestData.length rate)
  | none => none

/-- `NonConfirmableTransacation::initial_effects`:
`[NonLifetime, (NonRetransmission?), Transmit]`. -/
def NonConfirmableTransacation.initialEffects (t : NonConfirmableTransacation) :
    Effects :=
  [.createTimeout (.nonLifetime (NonLifetimeTimeout.new t.messageId t.transactionParameters))] ++
    (match t.timeout with
     | some timeout => [.createTimeout (.nonRetransmission timeout)]
     | none => []) ++
    [.transmit t.requestData]

/-- `transaction/mod.rs` `Transaction`. -/
inductive Transaction
  | confirmable (t : ConfirmableTransaction)
  | nonConfirmable (t : NonConfirmableTransacation)
deriving DecidableEq, Repr

instance : Inhabited Transaction :=
  ⟨.nonConfirmable
    { token := Codec.Token.empty, messageId := ⟨0⟩, requestData := []
      transactionParameters := NonConfirmableParameters.default }⟩

/-- `Transaction::new`: dispatch on the request's reliability. -/
def Transaction.new (messageId : Codec.MessageId) (token : Codec.Token)
    (request : NewRequest) : Transaction :=
  match request.reliability with
  | .confirmable parameters =>
    .confirmable (ConfirmableTransaction.new messageId token request parameters)
  | .nonConfirmable parameters =>
    .nonConfirmable (NonConfirmableTransacation.new messageId token request parameters)

/-- `Transaction::is_acknowledged`: non-confirmable transactions are
never acknowledged. -/
def Transaction.isAcknowledged : Transaction → Bool
  | .confirmable t => t.acknowledged
  | .nonConfirmable _ => false

/-- `Transaction::is_non_confirmable`. -/
def Transaction.isNonConfirmable : Transaction → Bool
  | .nonConfirmable _ => true
  | .confirmable _ => false

/-- `Transaction::message_id`. -/
def Transaction.messageId : Transaction → Codec.MessageId
  | .confirmable t => t.messageId
  | .nonConfirmable t => t.messageId

/-- `Transaction::token`. -/
def Transaction.token : Transaction → Codec.Token
  | .confirmable t => t.token
  | .nonConfirmable t => t.token

/-- `Transaction::timeout`: the resolved-with-timeout effect. -/
def Transaction.timeout (t : Transaction) : Effect :=
  .transactionResolved t.token (.error .timeout)

/-- `Transaction::acknowledged` (`&mut self`): sets the flag on
confirmable transactions, no-op otherwise. -/
def Transaction.acknowledged : Transaction → Transaction
  | .confirmable t => .confirmable t.setAcknowledged
  | t => t

/-- `Transaction::initial_effects`. -/
def Transaction.initialEffects : Transaction → Effects
  | .confirmable t => t.initialEffects
  | .nonConfirmable t => t.initialEffects

/-! ### Stores (src/coapium/src/protocol/{message_id_store,transaction_store}.rs) -/

instance : Inhabited Codec.MessageId := ⟨⟨0⟩⟩

/-- `message_id_store.rs` `MessageIdStore`: the claimed set and the
monotonically advancing `next` candidate (absent when exhausted). -/
structure MessageIdStore where
  claimed : List Codec.MessageId
  next : Option Codec.MessageId
deriving DecidableEq, Repr

/-- `MessageIdStore::new`. -/
def MessageIdStore.new (initialValue : Codec.MessageId) : MessageIdStore :=
  { claimed := [], next := some initialValue }

/-- `MessageIdStore::at_capacity`: no `next` candidate left. -/
def MessageIdStore.atCapacity (s : MessageIdStore) : Bool :=
  s.next.isNone

/-- `MessageIdStore::is_claimed`. -/
def MessageIdStore.isClaimed (s : MessageIdStore) (messageId : Codec.MessageId) :
    Bool :=
  s.claimed.any fun m => m = messageId

/-- `MessageIdStore::claim` (`&mut self`): hand out `next`, advance by
one, drop `next` entirely when the advanced value is already claimed
(wrap collision). -/
def MessageIdStore.claim (s : MessageIdStore) :
    Option Codec.MessageId × MessageIdStore :=
  match s.next with
  | none => (none, s)
  | some claimedId =>
    let next := claimedId.next
    let s' : MessageIdStore :=
      if s.isClaimed next then { s with next := none } else { s with next := some next }
    (some claimedId, { s' with claimed := s'.claimed ++ [claimedId] })

/-- `MessageIdStore::release` (`&mut self`): remove from the claimed
set (`swap_remove` of the first occurrence); when capacity was
exhausted, restore `next` to the released id. -/
def MessageIdStore.release (s : MessageIdStore) (messageId : Codec.MessageId) :
    MessageIdStore :=
  match position (fun m => m = messageId) s.claimed with
  | none => s
  | some position =>
    let claimed := swapRemove s.claimed position
    if s.next.isNone then { claimed, next := some messageId }
    else { s with claimed }

/-- `transaction_store.rs` `TransactionStore`. -/
structure TransactionStore where
  nstart : Nat
  transactions : List Transaction
deriving DecidableEq, Repr

/-- `TransactionStore::new`. -/
def TransactionStore.new (nstart : Nat) : TransactionStore :=
  { nstart, transactions := [] }

/-- `Default for TransactionStore`: `NSTART` slots. -/
def TransactionStore.default : TransactionStore :=
  TransactionStore.new NSTART

/-- `TransactionStore::count`. -/
def TransactionStore.count (s : TransactionStore) : Nat :=
  s.transactions.length

/-- `TransactionStore::add`. -/
def TransactionStore.add (s : TransactionStore) (transaction : Transaction) :
    TransactionStore :=
  { s with transactions := s.transactions ++ [transaction] }

/-- `TransactionStore::find_by_message_id`. -/
def TransactionStore.findByMessageId (s : TransactionStore)
    (messageId : Codec.MessageId) : Option Transaction :=
  s.transactions.find? fun t => t.messageId = messageId

/-- `TransactionStore::find_by_token`. -/
def TransactionStore.findByToken (s : TransactionStore) (token : Codec.Token) :
    Option Transaction :=
  s.transactions.find? fun t => t.token = token

/-- `TransactionStore::exists_by_token`. -/
def TransactionStore.existsByToken (s : TransactionStore) (token : Codec.Token) :
    Bool :=
  (s.findByToken token).isSome

/-- `TransactionStore::remove_by_message_id` (`&mut self`):
`swap_remove` of the first transaction with the message id. -/
def TransactionStore.removeByMessageId (s : TransactionStore)
    (messageId : Codec.MessageId) : Option Transaction × TransactionStore :=
  match position (fun t => t.messageId = messageId) s.transactions with
  | none => (none, s)
  | some i =>
    (s.transactions.get? i, { s with transactions := swapRemove s.transactions i })

/-- `TransactionStore::remove_by_token` (`&mut self`). -/
def TransactionStore.removeByToken (s : TransactionStore) (token : Codec.Token) :
    Option Transaction × TransactionStore :=
  match position (fun t => t.token = token) s.transactions with
  | none => (none, s)
  | some i =>
    (s.transactions.get? i, { s with transactions := swapRemove s.transactions i })

/-- `TransactionStore::current_nstart`: counts transactions that are
non-confirmable or already acknowledged. -/
def TransactionStore.currentNstart (s : TransactionStore) : Nat :=
  (s.transactions.filter fun t => t.isNonConfirmable ∨ t.isAcknowledged).length

/-- `TransactionStore::at_max_inflight_capacity`:
`current_nstart() >= nstart`. -/
def TransactionStore.atMaxInflightCapacity (s : TransactionStore) : Bool :=
  s.currentNstart ≥ s.nstart

/-- The mutation through `find_mut_by_message_id`: apply `f` to the
first transaction with the message id, in place. -/
def modifyFirstTransaction (messageId : Codec.MessageId)
    (f : Transaction → Transaction) : List Transaction → List Transaction
  | [] => []
  | t :: ts =>
    if t.messageId = messageId then f t :: ts
    else t :: modifyFirstTransaction messageId f ts

/-- `find_mut_by_message_id` followed by a mutation of the found
transaction, as a store update. -/
def TransactionStore.modifyFirstByMessageId (s : TransactionStore)
    (messageId : Codec.MessageId) (f : Transaction → Transaction) :
    TransactionStore :=
  { s with transactions := modifyFirstTransaction messageId f s.transactions }

/-! ### Processor (src/coapium/src/protocol/processor.rs) -/

/-- `processor.rs` `Error`. -/
inductive ProcessorError
  | other (message : String)
deriving DecidableEq, Repr

/-- `event.rs` `Event`. -/
inductive Event
  | transactionRequested (request : NewRequest) (token : Codec.Token)
  | transactionCanceled (token : Codec.Token)
  | timeoutReached (timeout : Timeout)
  | dataReceived (data : List Nat)
deriving DecidableEq, Repr

/-- `processor.rs` `Processor`: the queued requests, the live
transactions and the message-id allocator. -/
structure Processor where
  queued : List (NewRequest × Codec.Token)
  transactionStore : TransactionStore
  messageIdStore : MessageIdStore
deriving DecidableEq, Repr

/-- `Processor::new`. -/
def Processor.new (messageIdStore : MessageIdStore) : Processor :=
  { queued := [], transactionStore := TransactionStore.default, messageIdStore }

/-- `Processor::at_capacity`: NSTART or message-id exhaustion. -/
def Processor.atCapacity (p : Processor) : Bool :=
  p.transactionStore.atMaxInflightCapacity || p.messageIdStore.atCapacity

/-- `Processor::claim_message_id` (`&mut self`). -/
def Processor.claimMessageId (p : Processor) :
    Except ProcessorError (Codec.MessageId × Processor) :=
  let (messageId, store) := p.messageIdStore.claim
  match messageId with
  | none => .error (.other "Failed to claim message id")
  | some messageId => .ok (messageId, { p with messageIdStore := store })

/-- `Processor::on_transaction_requested`: duplicate tokens error;
at capacity the request is queued with no effects; otherwise claim an
id, build and store the transaction, and emit its initial effects. -/
def Processor.onTransactionRequested (p : Processor) (request : NewRequest)
    (token : Codec.Token) : Except ProcessorError Effects × Processor :=
  if p.transactionStore.existsByToken token then
    (.error (.other "Token already exists"), p)
  else if p.atCapacity then
    (.ok [], { p with queued := p.queued ++ [(request, token)] })
  else
    match p.claimMessageId with
    | .error e => (.error e, p)
    | .ok (messageId, p) =>
      let transaction := Transaction.new messageId token request
      (.ok transaction.initialEffects,
        { p with transactionStore := p.transactionStore.add transaction })

/-- `Processor::dequeue_request`: when below capacity, pop one pending
request and admit it. -/
def Processor.dequeueRequest (p : Processor) :
    Except ProcessorError Effects × Processor :=
  if p.atCapacity then (.ok [], p)
  else
    match p.queued with
    | [] => (.ok [], p)
    | (request, token) :: rest =>
      Processor.onTransactionRequested { p with queued := rest } request token

/-- `Processor::on_max_transmit_wait`: only a matching confirmable
transaction reacts; its `Err` side removes it. -/
def Processor.onMaxTransmitWait (p : Processor) (timeout : MaxTransmitWaitTimeout) :
    Except ProcessorError Effects × Processor :=
  match p.transactionStore.findByMessageId timeout.messageId with
  | some (.confirmable transaction) =>
    match transaction.onMaxTransmitWait with
    | .ok effects => (.ok effects, p)
    | .error effects =>
      (.ok effects,
        { p with transactionStore :=
            (p.transactionStore.removeByMessageId timeout.messageId).2 })
  | _ => (.ok [], p)

/-- `Processor::on_lifetime`: remove the owning transaction (resolving
it with a timeout) if still present, release the message id, then try
to dequeue a pending request. -/
def Processor.onLifetime (p : Processor) (messageId : Codec.MessageId) :
    Except ProcessorError Effects × Processor :=
  let (removed, store) := p.transactionStore.removeByMessageId messageId
  let effects : Effects :=
    match removed with
    | some transaction => [transaction.timeout]
    | none => []
  let p := { p with transactionStore := store
                    messageIdStore := p.messageIdStore.release messageId }
  match p.dequeueRequest with
  | (.error e, p) => (.error e, p)
  | (.ok dequeued, p) => (.ok (effects ++ dequeued), p)

/-- `Processor::on_retransmission`: a matching confirmable transaction
retransmits (mutating its counter in place) or, when exhausted, is
removed and resolved. -/
def Processor.onRetransmission (p : Processor) (timeout : RetransmissionTimeout) :
    Except ProcessorError Effects × Processor :=
  match p.transactionStore.findByMessageId timeout.messageId with
  | some (.confirmable transaction) =>
    match transaction.retransmit timeout with
    | (.ok effects, transaction') =>
      let store :=
        p.transactionStore.modifyFirstByMessageId timeout.messageId
          (fun _ => .confirmable transaction')
      (.ok effects, { p with transactionStore := store })
    | (.error effects, _) =>
      let store := (p.transactionStore.removeByMessageId timeout.messageId).2
      (.ok effects, { p with transactionStore := store })
  | _ => (.ok [], p)

/-- `Processor::on_timeout_reached`: dispatch on the timeout variant;
the `NonRetransmission` arm is `todo!()` in the source (a panic). -/
def Processor.onTimeoutReached (p : Processor) (timeout : Timeout) :
    Option (Except ProcessorError Effects × Processor) :=
  match timeout with
  | .nonLifetime t => some (p.onLifetime t.messageId)
  | .retransmission t => some (p.onRetransmission t)
  | .exchangeLifetime t => some (p.onLifetime t.messageId)
  | .maxTransmitWait t => some (p.onMaxTransmitWait t)
  | .nonRetransmission _ => none

/-- `From<Piggyback> for Response` (in `codec/message/piggyback.rs`):
the reliability is set to non-confirmable. -/
def piggybackToResponse (p : Codec.Piggyback) : Codec.Response :=
  Codec.Response.new .nonConfirmable p.token p.responseCode p.messageId
    p.options p.payload

/-- `Processor::on_response`: remove by token; a confirmable response
is acknowledged with a synthetic ACK `Transmit` ahead of the
`TransactionResolved`. -/
def Processor.onResponse (p : Processor) (response : Codec.Response) :
    Except ProcessorError Effects × Processor :=
  let (removed, store) := p.transactionStore.removeByToken response.token
  match removed with
  | none => (.ok [], p)
  | some transaction =>
    let effects : Effects :=
      (if response.reliability.isConfirmable then
        [.transmit (Codec.Acknowledgement.new response.messageId).encode]
      else []) ++
      [.transactionResolved transaction.token (.ok (Response.fromCodec response))]
    (.ok effects, { p with transactionStore := store })

/-- `Processor::on_piggyback`: treated as a response. -/
def Processor.onPiggyback (p : Processor) (piggyback : Codec.Piggyback) :
    Except ProcessorError Effects × Processor :=
  p.onResponse (piggybackToResponse piggyback)

/-- `Processor::on_acknowledgement`: mark the matching transaction
acknowledged, then try to dequeue. -/
def Processor.onAcknowledgement (p : Processor) (a : Codec.Acknowledgement) :
    Except ProcessorError Effects × Processor :=
  match p.transactionStore.findByMessageId a.messageId with
  | none => (.ok [], p)
  | some _ =>
    let p := { p with transactionStore :=
        p.transactionStore.modifyFirstByMessageId a.messageId Transaction.acknowledged }
    p.dequeueRequest

/-- `Processor::on_reset`: remove by message id and resolve with
`Err(Reset)`, then try to dequeue. -/
def Processor.onReset (p : Processor) (r : Codec.Reset) :
    Except ProcessorError Effects × Processor :=
  let (removed, store) := p.transactionStore.removeByMessageId r.messageId
  match removed with
  | none => (.ok [], p)
  | some transaction =>
    let p := { p with transactionStore := store }
    let effects : Effects := [.transactionResolved transaction.token (.error .reset)]
    match p.dequeueRequest with
    | (.error e, p) => (.error e, p)
    | (.ok dequeued, p) => (.ok (effects ++ dequeued), p)

/-- `Processor::on_data_received`: decode (propagating the decoder's
panics as `none`; a decode error is reported, with the state
untouched), then dispatch; inbound requests and reserved messages are
dropped. -/
def Processor.onDataReceived (p : Processor) (data : List Nat) :
    Option (Except ProcessorError Effects × Processor) :=
  match Codec.Message.decode data with
  | none => none
  | some (.error _) => some (.error (.other "Failed to parse message"), p)
  | some (.ok message) =>
    match message with
    | .acknowledgement a => some (p.onAcknowledgement a)
    | .piggyback piggyback => some (p.onPiggyback piggyback)
    | .request _ => some (.ok [], p)
    | .reset r => some (p.onReset r)
    | .response r => some (p.onResponse r)
    | .reserved _ => some (.ok [], p)

/-- `Processor::tick`: the pure event-to-effects step.
`TransactionCanceled` is a no-op in the source. -/
def Processor.tick (p : Processor) (event : Event) :
    Option (Except ProcessorError Effects × Processor) :=
  match event with
  | .transactionRequested request token => some (p.onTransactionRequested request token)
  | .transactionCanceled _ => some (.ok [], p)
  | .timeoutReached timeout => p.onTimeoutReached timeout
  | .dataReceived data => p.onDataReceived data

/-! ### Reachability and invariants used by the verification -/

/-- Store states reachable from `MessageIdStore::new(initial)` by any
sequence of `claim()` and `release()` calls. -/
inductive MessageIdStore.Reach (init : Codec.MessageId) : MessageIdStore → Prop
  | base : MessageIdStore.Reach init (MessageIdStore.new init)
  | claim {s : MessageIdStore} :
      MessageIdStore.Reach init s → MessageIdStore.Reach init s.claim.2
  | release {s : MessageIdStore} (messageId : Codec.MessageId) :
      MessageIdStore.Reach init s → MessageIdStore.Reach init (s.release messageId)

/-- Store states reachable from `MessageIdStore::new(initial)` by
`claim()` calls only. -/
inductive MessageIdStore.ClaimReach (init : Codec.MessageId) : MessageIdStore → Prop
  | base : MessageIdStore.ClaimReach init (MessageIdStore.new init)
  | claim {s : MessageIdStore} :
      MessageIdStore.ClaimReach init s → MessageIdStore.ClaimReach init s.claim.2

/-- `k` successive `claim()` calls. -/
def MessageIdStore.claimN (s : MessageIdStore) : Nat → MessageIdStore
  | 0 => s
  | k + 1 => (s.claimN k).claim.2

/-- Well-formedness of the message-id allocator: the claimed set has no
duplicates and the pending `next` id is unclaimed. -/
def MessageIdStore.WF (s : MessageIdStore) : Prop :=
  s.claimed.Nodup ∧ ∀ n, s.next = some n → n ∉ s.claimed

/-- Processor states reachable from `Processor::new` (with a store
seeded at `init`) by any sequence of non-panicking `tick`s. -/
inductive Processor.Reach (init : Codec.MessageId) : Processor → Prop
  | base : Processor.Reach init (Processor.new (MessageIdStore.new init))
  | step {p p' : Processor} {e : Event} {r : Except ProcessorError Effects} :
      Processor.Reach init p → p.tick e = some (r, p') → Processor.Reach init p'

/-- The processor invariant: a well-formed allocator, pairwise-distinct
message ids among live transactions, and every live transaction's id
claimed. -/
def Processor.Inv (p : Processor) : Prop :=
  p.messageIdStore.WF ∧
  (p.transactionStore.transactions.map Transaction.messageId).Nodup ∧
  ∀ t ∈ p.transactionStore.transactions, t.messageId ∈ p.messageIdStore.claimed

/-- Whether an effect is a `Transmit`. -/
def Effect.isTransmit : Effect → Bool
  | .transmit _ => true
  | _ => false

/-- The option numbers of the recognized catalogue, i.e. the numbers
tested by the dispatch in `Option::decode`. -/
def recognizedNumbers : List Codec.Number :=
  [Codec.Accept.number, Codec.ContentFormat.number, Codec.ETag.number,
    Codec.IfMatch.number, Codec.IfNoneMatch.number, Codec.LocationPath.number,
    Codec.LocationQuery.number, Codec.MaxAge.number, Codec.ProxyScheme.number,
    Codec.ProxyUri.number, Codec.Size1.number, Codec.UriHost.number,
    Codec.UriPath.number, Codec.UriPort.number, Codec.UriQuery.number]

/-! ### Concrete values used by witnesses and counterexamples -/

/-- A one-byte token `[1]`. -/
def tokenA : Codec.Token := ⟨⟨1⟩, [1]⟩

/-- A one-byte token `[2]`. -/
def tokenB : Codec.Token := ⟨⟨1⟩, [2]⟩

/-- Default confirmable parameters with jitter factor 0. -/
def defaultConParams : ConfirmableParameters := ConfirmableParameters.default ⟨0⟩

/-- A confirmable ping request with default parameters. -/
def pingRequest : NewRequest := .ping ⟨defaultConParams⟩

/-- A fresh processor with the allocator seeded at 0. -/
def proc0 : Processor := Processor.new (MessageIdStore.new ⟨0⟩)

/-- The transaction created when `pingRequest` is admitted with token
`tokenA` at message id 0. -/
def conTx0 : ConfirmableTransaction :=
  ConfirmableTransaction.new ⟨0⟩ tokenA pingRequest defaultConParams

/-- The processor after admitting `pingRequest` with `tokenA`. -/
def proc1 : Processor :=
  { queued := []
    transactionStore := ⟨1, [.confirmable conTx0]⟩
    messageIdStore := ⟨[⟨0⟩], some ⟨1⟩⟩ }

/-- The transaction created when a second `pingRequest` is admitted
with token `tokenB` at message id 1. -/
def conTx1 : ConfirmableTransaction :=
  ConfirmableTransaction.new ⟨1⟩ tokenB pingRequest defaultConParams

/-- The processor after the second admission (both transactions live). -/
def proc2 : Processor :=
  { queued := []
    transactionStore := ⟨1, [.confirmable conTx0, .confirmable conTx1]⟩
    messageIdStore := ⟨[⟨0⟩, ⟨1⟩], some ⟨2⟩⟩ }

/-- The encoded RST with message id 0. -/
def resetBytes0 : List Nat := (Codec.Reset.fromMessageId ⟨0⟩).encode

/-- The processor after `proc1` receives an RST for message id 0: the
transaction is gone but message id 0 is still claimed. -/
def procAfterReset : Processor :=
  { queued := []
    transactionStore := ⟨1, []⟩
    messageIdStore := ⟨[⟨0⟩], some ⟨1⟩⟩ }

/-- `procAfterReset` after the exchange-lifetime timeout for message
id 0 fires: the id has been released. -/
def procAfterLifetime : Processor :=
  { queued := []
    transactionStore := ⟨1, []⟩
    messageIdStore := ⟨[], some ⟨1⟩⟩ }

/-- The retransmission chain of claim C3: the processor holding one
confirmable transaction whose counter has reached `k`. -/
def c3State (request : NewRequest) (token : Codec.Token)
    (f : InitialRetransmissionFactor) (init : Codec.MessageId) (k : Nat) :
    Processor :=
  { queued := []
    transactionStore :=
      ⟨1, [.confirmable
        { ConfirmableTransaction.new init token request (ConfirmableParameters.default f) with
            retransmissionCounter := k }]⟩
    messageIdStore := ⟨[init], some init.next⟩ }

/-- The C3 end state: the transaction resolved and removed (its
message id still claimed until the lifetime timer fires). -/
def c3Final (init : Codec.MessageId) : Processor :=
  { queued := []
    transactionStore := ⟨1, []⟩
    messageIdStore := ⟨[init], some init.next⟩ }

/-- The retransmission timeout event delivered for message id 0 under
default parameters with jitter 0. -/
def rt0 : RetransmissionTimeout := RetransmissionTimeout.new ⟨0⟩ defaultConParams

/-- A `Number`-typed handle on the unrecognized critical number 9. -/
def number9 : Codec.Number :=
  ⟨.critical, .safe (.set 2), Codec.Delta.fromValue 9⟩

/-- A `Number`-typed handle on the unrecognized elective number 2. -/
def number2 : Codec.Number :=
  ⟨.elective, .unsafeToForward, Codec.Delta.fromValue 2⟩

/-- An unrecognized critical option (number 9). -/
def unrecognizedCritical : Codec.DecodedOption := ⟨number9, [.empty]⟩

/-- An unrecognized elective option (number 2). -/
def unrecognizedElective : Codec.DecodedOption := ⟨number2, [.empty]⟩

/-- The GET request message of the C4 counterexample (the same message
the repository's own `request.rs` test encodes): CON, message id 3,
token `[1,2,3]`, Uri-Path `abc`. -/
def c4GetMessage : Codec.Get :=
  Codec.Get.new ⟨3⟩ .confirmable ⟨⟨3⟩, [1, 2, 3]⟩
    ⟨⟨[.uriPath ⟨[.bytes (Codec.OptLength.fromValue 3) [97, 98, 99]]⟩]⟩⟩

/-- The C6 counterexample store: reachable, at capacity, yet id 65533
is unclaimed. -/
def c6Store : MessageIdStore :=
  ⟨((List.range 65533).map fun n => ⟨n⟩) ++ [⟨65534⟩, ⟨65535⟩], none⟩

/-! ## Theorems for the claims -/

/-- C1: the claim says that with `NSTART = 1`, after a first
Confirmable request is admitted and not yet acknowledged, a second
`TransactionRequested` with a fresh token must be queued (`tick`
returning `[]`).  Evaluating the source shows the opposite: with the
first CON transaction live and unacknowledged (`current_nstart` counts
only non-confirmable-or-acknowledged transactions, so the un-ACKed CON
occupies no slot), the second request is admitted immediately — `tick`
returns its full, non-empty initial effect list and nothing is queued. -/
theorem c1_second_request_admitted_immediately :
    proc0.tick (.transactionRequested pingRequest tokenA) =
      some (.ok (Transaction.confirmable conTx0).initialEffects, proc1) ∧
    proc1.transactionStore.findByToken tokenA = some (.confirmable conTx0) ∧
    conTx0.acknowledged = false ∧
    proc1.tick (.transactionRequested pingRequest tokenB) =
      some (.ok (Transaction.confirmable conTx1).initialEffects, proc2) ∧
    (Transaction.confirmable conTx1).initialEffects ≠ [] ∧
    proc2.queued = [] ∧
    proc2.transactionStore.count = 2 := by
  refine ⟨by decide, by decide, rfl, by decide, by decide, rfl, rfl⟩

/-- C4: the claim says `Message::decode(m.encode()) = Ok(m)` for every
valid message.  For the `Request` variant this fails: `Request::decode`
is `todo!()` in the source, so decoding the encoding of any request
message panics (modelled as `none`) instead of returning `Ok`.  The
concrete request below is the one encoded by the repository's own
`request.rs` test, and its encoding matches that test's expected
bytes. -/
theorem c4_request_decode_panics :
    (Codec.Request.get c4GetMessage).encode =
      [0x43, 0x01, 0, 3, 1, 2, 3, 0xb3, 97, 98, 99] ∧
    Codec.Message.decode ((Codec.Request.get c4GetMessage).encode) = none := by
  exact ⟨by decide, by decide⟩

/-- C5: the claim says `tick(TransactionCanceled(t))` removes the
matching live transaction and releases its message id.  The source's
`tick` discards the event entirely: for every processor state and
every token — in particular when a matching live transaction exists —
it returns `Ok([])` and leaves the state (queue, transaction store,
message-id store) untouched. -/
theorem c5_cancel_is_noop (p : Processor) (t : Codec.Token) :
    p.tick (.transactionCanceled t) = some (.ok [], p) := rfl

/-- C5 witness: the no-op observed on a state that does hold a live
transaction with the canceled token. -/
theorem c5_cancel_is_noop_witness :
    proc1.transactionStore.existsByToken tokenA = true ∧
    proc1.tick (.transactionCanceled tokenA) = some (.ok [], proc1) :=
  ⟨by decide, c5_cancel_is_noop proc1 tokenA⟩

/-- C9: `ping::into_result` maps a successful response to
`Err(UnexpectedResponse(response))`, `Err(Reset)` to `Ok(())`, and the
`AcknowledgementTimeout`, `Codec` and `Timeout` errors to the
`PingError` of the same name. -/
theorem c9_ping_into_result :
    (∀ r : Response, pingIntoResult (.ok r) = .error (.unexpectedResponse r)) ∧
    pingIntoResult (.error .reset) = .ok () ∧
    pingIntoResult (.error .acknowledgementTimeout) = .error .acknowledgementTimeout ∧
    (∀ e, pingIntoResult (.error (.codec e)) = .error (.codec e)) ∧
    pingIntoResult (.error .timeout) = .error .timeout :=
  ⟨fun _ => rfl, rfl, rfl, fun _ => rfl, rfl⟩

/-! ### Helper lemmas about `position`, `swapRemove` and the stores -/

theorem position_eq_none_iff {α} (p : α → Bool) (l : List α) :
    position p l = none ↔ ∀ x ∈ l, ¬ p x := by
  induction l with
  | nil => simp [position]
  | cons x xs ih =>
    by_cases hx : p x <;> simp [position, hx, ih]

theorem find?_eq_none_position {α} (p : α → Bool) (l : List α)
    (h : l.find? p = none) : position p l = none := by
  rw [position_eq_none_iff]
  simpa [List.find?_eq_none] using h

theorem position_lt_length {α} (p : α → Bool) (l : List α) (i : Nat)
    (h : position p l = some i) : i < l.length := by
  induction l generalizing i with
  | nil => simp [position] at h
  | cons x xs ih =>
    by_cases hx : p x
    · simp [position, hx] at h
      subst h
      simp
    · simp [position, hx] at h
      obtain ⟨j, hj, rfl⟩ := h
      have := ih j hj
      simp only [List.length_cons]
      omega

theorem position_get {α} (p : α → Bool) (l : List α) (i : Nat)
    (h : position p l = some i) : ∃ x, l.get? i = some x ∧ p x := by
  induction l generalizing i with
  | nil => simp [position] at h
  | cons x xs ih =>
    by_cases hx : p x
    · simp [position, hx] at h
      exact ⟨x, by simp [← h], hx⟩
    · simp [position, hx] at h
      obtain ⟨j, hj, rfl⟩ := h
      obtain ⟨y, hy, hpy⟩ := ih j hj
      exact ⟨y, by simpa using hy, hpy⟩

theorem swapRemove_perm {α} [Inhabited α] (l : List α) (i : Nat)
    (hi : i < l.length) : (swapRemove l i).Perm (l.eraseIdx i) := by
  unfold swapRemove
  by_cases hlast : i + 1 = l.length
  · rw [if_pos hlast, List.dropLast_eq_eraseIdx hlast]
  · rw [if_neg hlast]
    have hi1 : i + 1 < l.length := by omega
    have hne : l.drop (i + 1) ≠ [] := by
      simp only [ne_eq, List.drop_eq_nil_iff]
      omega
    rcases List.eq_nil_or_concat' (l.drop (i + 1)) with hmid | ⟨m, a, hma⟩
    · exact absurd hmid hne
    have hlast_eq : l.getLast?.getD default = a := by
      have h2 : l.getLast? = (l.drop (i + 1)).getLast? := by
        conv_lhs => rw [← List.take_append_drop (i + 1) l]
        rw [List.getLast?_append_of_ne_nil _ hne]
      rw [h2, hma, List.getLast?_append_of_ne_nil _ (by simp)]
      simp
    have hset : l.set i a = l.take i ++ a :: l.drop (i + 1) :=
      List.set_eq_take_cons_drop a hi
    rw [hlast_eq, hset, hma]
    have hmid : (l.take i ++ a :: (m ++ [a])).dropLast = l.take i ++ a :: m := by
      have hassoc : l.take i ++ a :: (m ++ [a]) = (l.take i ++ a :: m) ++ [a] := by simp
      rw [hassoc, List.dropLast_concat]
    rw [hmid, List.eraseIdx_eq_take_drop_succ, hma]
    refine List.Perm.append_left _ ?_
    exact (List.perm_append_singleton a m).symm.trans (by simp)

theorem eraseIdx_map {α β} (f : α → β) (l : List α) (i : Nat) :
    (l.map f).eraseIdx i = (l.eraseIdx i).map f := by
  rw [List.eraseIdx_eq_take_drop_succ, List.eraseIdx_eq_take_drop_succ,
    List.map_append, List.map_take, List.map_drop]

theorem swapRemove_perm_eraseIdx_map {α β} [Inhabited α] (f : α → β)
    (l : List α) (i : Nat) (hi : i < l.length) :
    ((swapRemove l i).map f).Perm ((l.map f).eraseIdx i) := by
  have h1 := (swapRemove_perm l i hi).map f
  rw [eraseIdx_map]
  exact h1

theorem tick_admit_first :
    proc0.tick (.transactionRequested pingRequest tokenA) =
      some (.ok (Transaction.confirmable conTx0).initialEffects, proc1) := by decide

theorem tick_reset_first :
    proc1.tick (.dataReceived resetBytes0) =
      some (.ok [.transactionResolved tokenA (.error .reset)], procAfterReset) := by decide

theorem reach_procAfterReset : Processor.Reach ⟨0⟩ procAfterReset :=
  .step (.step .base tick_admit_first) tick_reset_first

/-- C2 counterexample: after a CON ping is admitted (claiming message
id 0) and its transaction is resolved by an incoming RST, the
processor is in a reachable state with zero live transactions while
message id 0 is still claimed (it stays claimed until the
exchange-lifetime timeout fires, as the repository's own
`transaction_resolved_and_before_exchange_lifetime_timeout` test
asserts).  So the claimed-ids count does not equal the live
transaction count. -/
theorem c2_equality_fails_after_reset :
    Processor.Reach ⟨0⟩ procAfterReset ∧
    procAfterReset.transactionStore.count = 0 ∧
    procAfterReset.messageIdStore.claimed.length = 1 :=
  ⟨reach_procAfterReset, rfl, rfl⟩

/-- C7 counterexample: the exchange-lifetime timeout for message id 0
arrives after its transaction was already resolved and removed (by an
RST).  `tick` does return `Ok([])`, but it does not leave the state
unchanged: the message-id store releases id 0 (again matching the
repository's own `transaction_resolved_and_after_exchange_lifetime_timeout`
test). -/
theorem c7_lifetime_timeout_releases_id :
    Processor.Reach ⟨0⟩ procAfterReset ∧
    procAfterReset.transactionStore.findByMessageId ⟨0⟩ = none ∧
    procAfterReset.tick
        (.timeoutReached (.exchangeLifetime (ExchangeLifetimeTimeout.new ⟨0⟩ defaultConParams))) =
      some (.ok [], procAfterLifetime) ∧
    procAfterLifetime.messageIdStore ≠ procAfterReset.messageIdStore :=
  ⟨reach_procAfterReset, rfl, by decide, by decide⟩

/-- C7 amended: a `Retransmission` or `MaxTransmitWait` timeout whose
message id matches no live transaction yields `Ok([])` and leaves the
whole processor state unchanged; an `ExchangeLifetime` or
`NonLifetime` timeout with no matching transaction and an empty queue
also yields `Ok([])` and leaves the queue and transaction store
unchanged, but releases the timeout's message id from the message-id
store.  (A `NonRetransmission` timeout is excluded: that arm is
`todo!()` in the source and panics.) -/
theorem c7_unmatched_timeouts_amended (p : Processor) :
    (∀ t : RetransmissionTimeout,
      p.transactionStore.findByMessageId t.messageId = none →
      p.tick (.timeoutReached (.retransmission t)) = some (.ok [], p)) ∧
    (∀ t : MaxTransmitWaitTimeout,
      p.transactionStore.findByMessageId t.messageId = none →
      p.tick (.timeoutReached (.maxTransmitWait t)) = some (.ok [], p)) ∧
    (∀ t : ExchangeLifetimeTimeout,
      p.transactionStore.findByMessageId t.messageId = none → p.queued = [] →
      p.tick (.timeoutReached (.exchangeLifetime t)) =
        some (.ok [], { p with messageIdStore := p.messageIdStore.release t.messageId })) ∧
    (∀ t : NonLifetimeTimeout,
      p.transactionStore.findByMessageId t.messageId = none → p.queued = [] →
      p.tick (.timeoutReached (.nonLifetime t)) =
        some (.ok [], { p with messageIdStore := p.messageIdStore.release t.messageId })) := by
  have hlife : ∀ m : Codec.MessageId,
      p.transactionStore.findByMessageId m = none → p.queued = [] →
      p.onLifetime m =
        (.ok [], { p with messageIdStore := p.messageIdStore.release m }) := by
    intro m hfind hq
    unfold Processor.onLifetime
    have hpos : position (fun t => t.messageId = m) p.transactionStore.transactions = none :=
      find?_eq_none_position _ _ hfind
    unfold TransactionStore.removeByMessageId
    rw [hpos]
    simp only
    have hstore : { p.transactionStore with transactions := p.transactionStore.transactions } =
        p.transactionStore := rfl
    unfold Processor.dequeueRequest
    by_cases hcap :
        ({ p with transactionStore := p.transactionStore
                  messageIdStore := p.messageIdStore.release m } : Processor).atCapacity
    · simp [hcap]
    · simp [hcap, hq]
  refine ⟨?_, ?_, ?_, ?_⟩
  · intro t hfind
    simp only [Processor.tick, Processor.onTimeoutReached, Processor.onRetransmission, hfind]
  · intro t hfind
    simp only [Processor.tick, Processor.onTimeoutReached, Processor.onMaxTransmitWait, hfind]
  · intro t hfind hq
    simp only [Processor.tick, Processor.onTimeoutReached, hlife t.messageId hfind hq]
  · intro t hfind hq
    simp only [Processor.tick, Processor.onTimeoutReached, hlife t.messageId hfind hq]

/-- C7 amended, witness: the four conclusions observed on the
post-reset state with the unmatched message id 5, and on the same
state for the lifetime variants with message id 0. -/
theorem c7_unmatched_timeouts_amended_witness :
    procAfterReset.tick (.timeoutReached (.retransmission ⟨2, ⟨5⟩⟩)) =
      some (.ok [], procAfterReset) ∧
    procAfterReset.tick (.timeoutReached (.maxTransmitWait ⟨93, ⟨5⟩⟩)) =
      some (.ok [], procAfterReset) ∧
    procAfterReset.tick (.timeoutReached (.exchangeLifetime ⟨247, ⟨0⟩⟩)) =
      some (.ok [],
        { procAfterReset with messageIdStore := procAfterReset.messageIdStore.release ⟨0⟩ }) ∧
    procAfterReset.tick (.timeoutReached (.nonLifetime ⟨145, ⟨0⟩⟩)) =
      some (.ok [],
        { procAfterReset with messageIdStore := procAfterReset.messageIdStore.release ⟨0⟩ }) := by
  have h := c7_unmatched_timeouts_amended procAfterReset
  exact ⟨h.1 ⟨2, ⟨5⟩⟩ (by decide), h.2.1 ⟨93, ⟨5⟩⟩ (by decide),
    h.2.2.1 ⟨247, ⟨0⟩⟩ (by decide) rfl, h.2.2.2 ⟨145, ⟨0⟩⟩ (by decide) rfl⟩

theorem decode_unrecognized_dispatch (d : Codec.DecodedOption)
    (h : d.number ∉ recognizedNumbers) :
    Codec.COption.decode d = Codec.COption.decodeUnrecognized d := by
  simp only [recognizedNumbers, List.mem_cons, List.not_mem_nil, or_false,
    not_or] at h
  obtain ⟨h1, h2, h3, h4, h5, h6, h7, h8, h9, h10, h11, h12, h13, h14, h15⟩ := h
  simp only [Codec.COption.decode,
    if_neg h1, if_neg h2, if_neg h3, if_neg h4, if_neg h5, if_neg h6, if_neg h7,
    if_neg h8, if_neg h9, if_neg h10, if_neg h11, if_neg h12, if_neg h13,
    if_neg h14, if_neg h15]

/-- C8: during option decoding, an option whose number is outside the
recognized catalogue is dispatched to `decode_unrecognized`: it fails
with `Unrecognized(number)` when the number's class is critical, and
it decodes to `None` when elective — in which case the surrounding
`Options::decode` silently drops it and decoding of the remaining
options proceeds exactly as if it were absent. -/
theorem c8_unrecognized_option_decoding (d : Codec.DecodedOption)
    (h : d.number ∉ recognizedNumbers) :
    (d.number.class'.isCritical = true →
      Codec.COption.decode d = .error (.unrecognized d.number)) ∧
    (d.number.class'.isCritical = false →
      Codec.COption.decode d = .ok none) ∧
    (d.number.class'.isCritical = false →
      ∀ l1 l2 : List Codec.DecodedOption,
        Codec.Options.decode ⟨l1 ++ d :: l2⟩ = Codec.Options.decode ⟨l1 ++ l2⟩) := by
  have hd := decode_unrecognized_dispatch d h
  refine ⟨?_, ?_, ?_⟩
  · intro hc
    rw [hd]
    unfold Codec.COption.decodeUnrecognized
    rw [if_pos hc]
  · intro hc
    rw [hd]
    unfold Codec.COption.decodeUnrecognized
    rw [if_neg (by simp [hc])]
  · intro hc l1 l2
    have hnone : Codec.COption.decode d = .ok none := by
      rw [hd]
      unfold Codec.COption.decodeUnrecognized
      rw [if_neg (by simp [hc])]
    have key : ∀ l1 : List Codec.DecodedOption,
        (Codec.Options.decodeList (l1 ++ d :: l2)).map (·.filterMap id) =
          (Codec.Options.decodeList (l1 ++ l2)).map (·.filterMap id) := by
      intro l1
      induction l1 with
      | nil =>
        simp only [List.nil_append, Codec.Options.decodeList, hnone]
        cases hrest : Codec.Options.decodeList l2 with
        | error e => simp [Except.map]
        | ok os => simp [Except.map, List.filterMap_cons]
      | cons x xs ih =>
        simp only [List.cons_append, Codec.Options.decodeList]
        cases hx : Codec.COption.decode x with
        | error e => simp
        | ok o =>
          cases ha : Codec.Options.decodeList (xs ++ d :: l2) with
          | error e =>
            cases hb : Codec.Options.decodeList (xs ++ l2) with
            | error e' =>
              rw [ha, hb] at ih
              simp only [Except.map] at ih ⊢
              exact ih
            | ok os =>
              rw [ha, hb] at ih
              simp [Except.map] at ih
          | ok os =>
            cases hb : Codec.Options.decodeList (xs ++ l2) with
            | error e' =>
              rw [ha, hb] at ih
              simp [Except.map] at ih
            | ok os' =>
              rw [ha, hb] at ih
              simp only [Except.map, Except.ok.injEq] at ih
              cases o with
              | none => simp [Except.map, List.filterMap_cons, ih]
              | some a => simp [Except.map, List.filterMap_cons, ih]
    have hdec : ∀ L : List Codec.DecodedOption,
        Codec.Options.decode ⟨L⟩ =
          (match (Codec.Options.decodeList L).map (·.filterMap id) with
            | .error e => .error (.option e)
            | .ok v => .ok ⟨v⟩) := by
      intro L
      unfold Codec.Options.decode
      cases Codec.Options.decodeList L <;> simp [Except.map]
    rw [hdec, hdec, key l1]

/-- C8 witness: the unrecognized critical number 9 fails with
`Unrecognized`, the unrecognized elective number 2 decodes to `None`
and is dropped by `Options::decode`. -/
theorem c8_unrecognized_option_decoding_witness :
    Codec.COption.decode unrecognizedCritical = .error (.unrecognized number9) ∧
    Codec.COption.decode unrecognizedElective = .ok none ∧
    Codec.Options.decode ⟨[unrecognizedElective]⟩ = Codec.Options.decode ⟨[]⟩ := by
  have h9 := c8_unrecognized_option_decoding unrecognizedCritical (by decide)
  have h2 := c8_unrecognized_option_decoding unrecognizedElective (by decide)
  exact ⟨h9.1 (by decide), h2.2.1 (by decide), h2.2.2 (by decide) [] []⟩

theorem c3_admission_step (request : NewRequest) (token : Codec.Token)
    (f : InitialRetransmissionFactor) (init : Codec.MessageId)
    (hrel : request.reliability = .confirmable (ConfirmableParameters.default f)) :
    (Processor.new (MessageIdStore.new init)).tick
        (.transactionRequested request token) =
      some (.ok
        [.createTimeout (.exchangeLifetime
            (ExchangeLifetimeTimeout.new init (ConfirmableParameters.default f))),
          .createTimeout (.retransmission
            (RetransmissionTimeout.new init (ConfirmableParameters.default f))),
          .transmit (request.encode init token)],
        c3State request token f init 0) := by
  simp [Processor.tick, Processor.onTransactionRequested, Processor.new,
    MessageIdStore.new, TransactionStore.existsByToken, TransactionStore.findByToken,
    TransactionStore.default, TransactionStore.new, NSTART, Processor.atCapacity,
    TransactionStore.atMaxInflightCapacity, TransactionStore.currentNstart,
    MessageIdStore.atCapacity, Processor.claimMessageId, MessageIdStore.claim,
    MessageIdStore.isClaimed, Transaction.new, hrel, ConfirmableTransaction.new,
    Transaction.initialEffects, ConfirmableTransaction.initialEffects,
    TransactionStore.add, c3State]

theorem c3_retransmit_step (request : NewRequest) (token : Codec.Token)
    (f : InitialRetransmissionFactor) (init : Codec.MessageId)
    (tmo : RetransmissionTimeout) (k : Nat)
    (hmid : tmo.messageId = init) (hk : k < 4) :
    (c3State request token f init k).tick (.timeoutReached (.retransmission tmo)) =
      some (.ok [.createTimeout (.retransmission tmo.next),
          .transmit (request.encode init token)],
        c3State request token f init (k + 1)) := by
  simp [Processor.tick, Processor.onTimeoutReached, Processor.onRetransmission,
    TransactionStore.findByMessageId, c3State, ConfirmableTransaction.new,
    Transaction.messageId, hmid, ConfirmableTransaction.retransmit,
    ConfirmableTransaction.canRetransmit, ConfirmableParameters.default,
    MaxRetransmit.default, hk, TransactionStore.modifyFirstByMessageId,
    modifyFirstTransaction]

theorem c3_exhaustion_step (request : NewRequest) (token : Codec.Token)
    (f : InitialRetransmissionFactor) (init : Codec.MessageId)
    (tmo : RetransmissionTimeout) (hmid : tmo.messageId = init) :
    (c3State request token f init 4).tick (.timeoutReached (.retransmission tmo)) =
      some (.ok [.transactionResolved token (.error .timeout)], c3Final init) := by
  simp [Processor.tick, Processor.onTimeoutReached, Processor.onRetransmission,
    TransactionStore.findByMessageId, c3State, ConfirmableTransaction.new,
    Transaction.messageId, hmid, ConfirmableTransaction.retransmit,
    ConfirmableTransaction.canRetransmit, ConfirmableParameters.default,
    MaxRetransmit.default, TransactionStore.removeByMessageId, position,
    swapRemove, c3Final]

/-- C3: a confirmable transaction admitted under default parameters
(`MAX_RETRANSMIT = 4`) and fed only successive retransmission timeout
events produces exactly `MAX_RETRANSMIT + 1 = 5` `Transmit` effects —
one in the initial effects and one per retransmission step, each
carrying the identical encoded request bytes — and the next
retransmission timeout after the fourth resolves the transaction with
`Err(Timeout)` and removes it from the store. -/
theorem c3_retransmission_chain (request : NewRequest) (token : Codec.Token)
    (f : InitialRetransmissionFactor) (init : Codec.MessageId)
    (tmo : RetransmissionTimeout)
    (hrel : request.reliability = .confirmable (ConfirmableParameters.default f))
    (hmid : tmo.messageId = init) :
    ((Processor.new (MessageIdStore.new init)).tick
        (.transactionRequested request token) =
      some (.ok
        [.createTimeout (.exchangeLifetime
            (ExchangeLifetimeTimeout.new init (ConfirmableParameters.default f))),
          .createTimeout (.retransmission
            (RetransmissionTimeout.new init (ConfirmableParameters.default f))),
          .transmit (request.encode init token)],
        c3State request token f init 0)) ∧
    (∀ k, k < 4 →
      (c3State request token f init k).tick
          (.timeoutReached (.retransmission tmo)) =
        some (.ok [.createTimeout (.retransmission tmo.next),
            .transmit (request.encode init token)],
          c3State request token f init (k + 1))) ∧
    ((c3State request token f init 4).tick
        (.timeoutReached (.retransmission tmo)) =
      some (.ok [.transactionResolved token (.error .timeout)], c3Final init)) ∧
    (c3Final init).transactionStore.count = 0 ∧
    List.countP Effect.isTransmit
        ([.createTimeout (.exchangeLifetime
            (ExchangeLifetimeTimeout.new init (ConfirmableParameters.default f))),
          .createTimeout (.retransmission
            (RetransmissionTimeout.new init (ConfirmableParameters.default f))),
          .transmit (request.encode init token)] ++
          (List.replicate 4 [Effect.createTimeout (.retransmission tmo.next),
            Effect.transmit (request.encode init token)]).flatten ++
          [Effect.transactionResolved token (.error .timeout)]) =
      MaxRetransmit.default.value + 1 := by
  refine ⟨c3_admission_step request token f init hrel,
    fun k hk => c3_retransmit_step request token f init tmo k hmid hk,
    c3_exhaustion_step request token f init tmo hmid, rfl, ?_⟩
  simp [List.replicate, List.countP_cons, Effect.isTransmit, MaxRetransmit.default]

/-- C3 witness: the chain at the concrete ping request, token `[1]`,
jitter factor 0 and initial message id 0. -/
theorem c3_retransmission_chain_witness :
    pingRequest.reliability = .confirmable (ConfirmableParameters.default ⟨0⟩) ∧
    rt0.messageId = (⟨0⟩ : Codec.MessageId) ∧
    ((Processor.new (MessageIdStore.new ⟨0⟩)).tick
        (.transactionRequested pingRequest tokenA) =
      some (.ok
        [.createTimeout (.exchangeLifetime
            (ExchangeLifetimeTimeout.new ⟨0⟩ (ConfirmableParameters.default ⟨0⟩))),
          .createTimeout (.retransmission
            (RetransmissionTimeout.new ⟨0⟩ (ConfirmableParameters.default ⟨0⟩))),
          .transmit (pingRequest.encode ⟨0⟩ tokenA)],
        c3State pingRequest tokenA ⟨0⟩ ⟨0⟩ 0)) ∧
    (∀ k, k < 4 →
      (c3State pingRequest tokenA ⟨0⟩ ⟨0⟩ k).tick
          (.timeoutReached (.retransmission rt0)) =
        some (.ok [.createTimeout (.retransmission rt0.next),
            .transmit (pingRequest.encode ⟨0⟩ tokenA)],
          c3State pingRequest tokenA ⟨0⟩ ⟨0⟩ (k + 1))) ∧
    ((c3State pingRequest tokenA ⟨0⟩ ⟨0⟩ 4).tick
        (.timeoutReached (.retransmission rt0)) =
      some (.ok [.transactionResolved tokenA (.error .timeout)], c3Final ⟨0⟩)) ∧
    (c3Final (⟨0⟩ : Codec.MessageId)).transactionStore.count = 0 ∧
    List.countP Effect.isTransmit
        ([.createTimeout (.exchangeLifetime
            (ExchangeLifetimeTimeout.new ⟨0⟩ (ConfirmableParameters.default ⟨0⟩))),
          .createTimeout (.retransmission
            (RetransmissionTimeout.new ⟨0⟩ (ConfirmableParameters.default ⟨0⟩))),
          .transmit (pingRequest.encode ⟨0⟩ tokenA)] ++
          (List.replicate 4 [Effect.createTimeout (.retransmission rt0.next),
            Effect.transmit (pingRequest.encode ⟨0⟩ tokenA)]).flatten ++
          [Effect.transactionResolved tokenA (.error .timeout)]) =
      MaxRetransmit.default.value + 1 :=
  ⟨rfl, rfl, c3_retransmission_chain pingRequest tokenA ⟨0⟩ ⟨0⟩ rt0 rfl rfl⟩

theorem messageId_next_ne (m : Codec.MessageId) : m.next ≠ m := by
  intro h
  have hv := congrArg Codec.MessageId.value h
  simp only [Codec.MessageId.next] at hv
  omega

theorem isClaimed_iff (s : MessageIdStore) (m : Codec.MessageId) :
    s.isClaimed m = true ↔ m ∈ s.claimed := by
  simp [MessageIdStore.isClaimed]

theorem MessageIdStore.wf_claim (s : MessageIdStore) (h : s.WF) : s.claim.2.WF := by
  obtain ⟨hnodup, hnext⟩ := h
  unfold MessageIdStore.claim
  cases hs : s.next with
  | none => exact ⟨hnodup, hnext⟩
  | some c =>
    have hc : c ∉ s.claimed := hnext c hs
    by_cases hcl : s.isClaimed c.next
    · simp only [hcl, if_pos]
      refine ⟨?_, ?_⟩
      · simpa [List.nodup_append, hnodup] using hc
      · intro n hn
        cases hn
    · simp only [hcl, if_neg, Bool.false_eq_true, not_false_eq_true]
      refine ⟨?_, ?_⟩
      · simpa [List.nodup_append, hnodup] using hc
      · intro n hn
        cases hn
        have h1 : c.next ∉ s.claimed := by
          intro hmem
          exact hcl ((isClaimed_iff s c.next).mpr hmem)
        intro hmem
        rcases List.mem_append.mp hmem with h2 | h2
        · exact h1 h2
        · exact messageId_next_ne c (by simpa using h2)

theorem MessageIdStore.wf_release (s : MessageIdStore) (m : Codec.MessageId)
    (h : s.WF) : (s.release m).WF := by
  obtain ⟨hnodup, hnext⟩ := h
  unfold MessageIdStore.release
  split
  · exact ⟨hnodup, hnext⟩
  · rename_i i hpos
    have hi : i < s.claimed.length := position_lt_length _ _ _ hpos
    have hperm := swapRemove_perm s.claimed i hi
    have hnodup' : (swapRemove s.claimed i).Nodup :=
      hperm.nodup_iff.mpr ((List.eraseIdx_sublist s.claimed i).nodup hnodup)
    have hget : s.claimed.get? i = some m := by
      obtain ⟨x, hx, hpx⟩ := position_get _ _ _ hpos
      simpa [show x = m by simpa using hpx] using hx
    have hgetElem : s.claimed[i] = m := by
      have h2 : s.claimed[i]? = some m := by
        rw [← List.get?_eq_getElem?]
        exact hget
      rw [List.getElem?_eq_getElem hi] at h2
      exact Option.some.inj h2
    have hdecomp : s.claimed = s.claimed.take i ++ m :: s.claimed.drop (i + 1) := by
      conv_lhs => rw [← List.take_append_drop i s.claimed]
      rw [List.drop_eq_getElem_cons hi, hgetElem]
    have hnotmem : m ∉ s.claimed.eraseIdx i := by
      rw [List.eraseIdx_eq_take_drop_succ]
      have hmid : (s.claimed.take i ++ m :: s.claimed.drop (i + 1)).Nodup := by
        rw [← hdecomp]
        exact hnodup
      exact (List.nodup_cons.mp (List.nodup_middle.mp hmid)).1
    have hnotmem' : m ∉ swapRemove s.claimed i := fun hmem =>
      hnotmem (hperm.mem_iff.mp hmem)
    split
    · refine ⟨hnodup', ?_⟩
      intro n h1
      obtain rfl : m = n := Option.some.inj h1
      exact hnotmem'
    · refine ⟨hnodup', ?_⟩
      intro n h1
      intro hmem
      exact hnext n h1 ((List.eraseIdx_sublist s.claimed i).mem (hperm.mem_iff.mp hmem))

theorem MessageIdStore.reach_wf {init : Codec.MessageId} {s : MessageIdStore}
    (h : MessageIdStore.Reach init s) : s.WF := by
  induction h with
  | base => exact ⟨List.nodup_nil, fun n _ hmem => (List.not_mem_nil n) hmem⟩
  | claim _ ih => exact MessageIdStore.wf_claim _ ih
  | release m _ ih => exact MessageIdStore.wf_release _ m ih

/-- C10: in every store state reachable from `new(initial)` by any
sequence of `claim()` and `release()` calls, the pending `next` id
(when present) is outside the claimed set, and consequently `claim()`
never hands out a message id that is currently claimed. -/
theorem c10_no_double_allocation (init : Codec.MessageId) (s : MessageIdStore)
    (h : MessageIdStore.Reach init s) :
    (∀ n, s.next = some n → n ∉ s.claimed) ∧
    (∀ m, s.claim.1 = some m → s.isClaimed m = false) := by
  have hwf := MessageIdStore.reach_wf h
  refine ⟨hwf.2, ?_⟩
  intro m hm
  unfold MessageIdStore.claim at hm
  cases hs : s.next with
  | none => rw [hs] at hm; cases hm
  | some c =>
    rw [hs] at hm
    simp only at hm
    have hcm : c = m := Option.some.inj hm
    subst hcm
    have hnot := hwf.2 c hs
    cases hcl : s.isClaimed c with
    | false => rfl
    | true => exact absurd ((isClaimed_iff s c).mp hcl) hnot

/-- C10 witness: the no-double-allocation property observed on the
store reached by one `claim()` from `new(0)` (id 0 claimed, `next`
pending at 1). -/
theorem c10_no_double_allocation_witness :
    (∀ n, (MessageIdStore.new ⟨0⟩).claim.2.next = some n →
      n ∉ (MessageIdStore.new ⟨0⟩).claim.2.claimed) ∧
    (∀ m, (MessageIdStore.new ⟨0⟩).claim.2.claim.1 = some m →
      (MessageIdStore.new ⟨0⟩).claim.2.isClaimed m = false) :=
  c10_no_double_allocation ⟨0⟩ (MessageIdStore.new ⟨0⟩).claim.2
    (.claim .base)

theorem list_decomp_of_get? {α} (l : List α) (i : Nat) (m : α) (hi : i < l.length)
    (h : l.get? i = some m) : l = l.take i ++ m :: l.drop (i + 1) := by
  have hgetElem : l[i] = m := by
    have h2 : l[i]? = some m := by
      rw [← List.get?_eq_getElem?]
      exact h
    rw [List.getElem?_eq_getElem hi] at h2
    exact Option.some.inj h2
  conv_lhs => rw [← List.take_append_drop i l]
  rw [List.drop_eq_getElem_cons hi, hgetElem]

theorem not_mem_eraseIdx_of_nodup {α} (l : List α) (i : Nat) (m : α)
    (hi : i < l.length) (h : l.get? i = some m) (hn : l.Nodup) :
    m ∉ l.eraseIdx i := by
  rw [List.eraseIdx_eq_take_drop_succ]
  have hmid : (l.take i ++ m :: l.drop (i + 1)).Nodup := by
    rw [← list_decomp_of_get? l i m hi h]
    exact hn
  exact (List.nodup_cons.mp (List.nodup_middle.mp hmid)).1

theorem mem_eraseIdx_of_ne {α} (l : List α) (i : Nat) (m x : α)
    (hi : i < l.length) (h : l.get? i = some m) (hx : x ∈ l) (hne : x ≠ m) :
    x ∈ l.eraseIdx i := by
  rw [List.eraseIdx_eq_take_drop_succ]
  rw [list_decomp_of_get? l i m hi h] at hx
  rcases List.mem_append.mp hx with h1 | h1
  · exact List.mem_append.mpr (Or.inl h1)
  · rcases List.mem_cons.mp h1 with h2 | h2
    · exact absurd h2 hne
    · exact List.mem_append.mpr (Or.inr h2)

theorem mem_release_claimed (s : MessageIdStore) (m x : Codec.MessageId)
    (hx : x ∈ s.claimed) (hne : x ≠ m) : x ∈ (s.release m).claimed := by
  unfold MessageIdStore.release
  split
  · exact hx
  · rename_i i hpos
    have hi := position_lt_length _ _ _ hpos
    have hget : s.claimed.get? i = some m := by
      obtain ⟨y, hy, hpy⟩ := position_get _ _ _ hpos
      simpa [show y = m by simpa using hpy] using hy
    have hperm := swapRemove_perm s.claimed i hi
    have hmem := mem_eraseIdx_of_ne s.claimed i m x hi hget hx hne
    split
    · exact hperm.mem_iff.mpr hmem
    · exact hperm.mem_iff.mpr hmem

theorem swapRemove_mids (ts : List Transaction) (i : Nat) (hi : i < ts.length)
    (hnodup : (ts.map Transaction.messageId).Nodup) :
    ((swapRemove ts i).map Transaction.messageId).Nodup ∧
    (∀ t ∈ swapRemove ts i, t ∈ ts) ∧
    (∀ t ∈ swapRemove ts i, ∀ tm, ts.get? i = some tm →
      t.messageId ≠ tm.messageId) := by
  have hperm := swapRemove_perm_eraseIdx_map Transaction.messageId ts i hi
  refine ⟨?_, ?_, ?_⟩
  · exact hperm.nodup_iff.mpr ((List.eraseIdx_sublist _ i).nodup hnodup)
  · intro t ht
    exact (List.eraseIdx_sublist ts i).mem ((swapRemove_perm ts i hi).mem_iff.mp ht)
  · intro t ht tm htm heq
    have hmlen : i < (ts.map Transaction.messageId).length := by simpa using hi
    have hmap : (ts.map Transaction.messageId).get? i = some tm.messageId := by
      rw [List.get?_eq_getElem?, List.getElem?_map]
      rw [List.get?_eq_getElem?] at htm
      rw [htm]
      rfl
    have hnot := not_mem_eraseIdx_of_nodup (ts.map Transaction.messageId) i
      tm.messageId hmlen hmap hnodup
    have hmem : t.messageId ∈ (ts.map Transaction.messageId).eraseIdx i :=
      hperm.mem_iff.mp (List.mem_map_of_mem _ ht)
    rw [heq] at hmem
    exact hnot hmem

theorem claim_eq_of_next (s : MessageIdStore) (c : Codec.MessageId)
    (h : s.next = some c) :
    s.claim = (some c,
      { claimed := s.claimed ++ [c]
        next := if s.isClaimed c.next then none else some c.next }) := by
  unfold MessageIdStore.claim
  rw [h]
  by_cases hcl : s.isClaimed c.next
  · simp [hcl]
  · simp [hcl]

theorem claimMessageId_eq (p : Processor) (c : Codec.MessageId)
    (h : p.messageIdStore.next = some c) :
    p.claimMessageId = .ok (c, { p with messageIdStore :=
      { claimed := p.messageIdStore.claimed ++ [c]
        next := if p.messageIdStore.isClaimed c.next then none
          else some c.next } }) := by
  unfold Processor.claimMessageId
  rw [claim_eq_of_next p.messageIdStore c h]

theorem Transaction.new_messageId (m : Codec.MessageId) (token : Codec.Token)
    (request : NewRequest) : (Transaction.new m token request).messageId = m := by
  unfold Transaction.new
  cases request.reliability <;> rfl

theorem retransmit_messageId (t : ConfirmableTransaction)
    (timeout : RetransmissionTimeout) :
    (t.retransmit timeout).2.messageId = t.messageId := by
  unfold ConfirmableTransaction.retransmit
  by_cases h1 : t.acknowledged
  · rw [if_pos h1]
  · rw [if_neg h1]
    by_cases h2 : ¬ t.canRetransmit
    · rw [if_pos h2]
    · rw [if_neg h2]

theorem acknowledged_messageId (t : Transaction) :
    (Transaction.acknowledged t).messageId = t.messageId := by
  cases t <;> rfl

theorem modifyFirst_map_messageId (m : Codec.MessageId)
    (f : Transaction → Transaction)
    (hf : ∀ t : Transaction, t.messageId = m → (f t).messageId = t.messageId) :
    ∀ ts : List Transaction,
      (modifyFirstTransaction m f ts).map Transaction.messageId =
        ts.map Transaction.messageId := by
  intro ts
  induction ts with
  | nil => rfl
  | cons t ts ih =>
    unfold modifyFirstTransaction
    by_cases ht : t.messageId = m
    · rw [if_pos ht]
      simp [hf t ht, ih]
    · rw [if_neg ht]
      simp [ih]

theorem inv_modifyFirst (p : Processor) (m : Codec.MessageId)
    (f : Transaction → Transaction)
    (hf : ∀ t : Transaction, t.messageId = m → (f t).messageId = t.messageId)
    (h : p.Inv) :
    Processor.Inv { p with transactionStore :=
      p.transactionStore.modifyFirstByMessageId m f } := by
  obtain ⟨hwf, hnodup, hsub⟩ := h
  have hmap := modifyFirst_map_messageId m f hf p.transactionStore.transactions
  refine ⟨hwf, ?_, ?_⟩
  · simpa [TransactionStore.modifyFirstByMessageId, hmap] using hnodup
  · intro t ht
    have hmem : t.messageId ∈
        (modifyFirstTransaction m f p.transactionStore.transactions).map
          Transaction.messageId :=
      List.mem_map_of_mem _ ht
    rw [hmap] at hmem
    obtain ⟨u, hu, hum⟩ := List.mem_map.mp hmem
    rw [← hum]
    exact hsub u hu

theorem inv_removeByMessageId (p : Processor) (m : Codec.MessageId) (h : p.Inv) :
    Processor.Inv { p with transactionStore :=
      (p.transactionStore.removeByMessageId m).2 } := by
  obtain ⟨hwf, hnodup, hsub⟩ := h
  unfold TransactionStore.removeByMessageId
  cases hpos : position (fun t => t.messageId = m) p.transactionStore.transactions with
  | none => exact ⟨hwf, hnodup, hsub⟩
  | some i =>
    have hi := position_lt_length _ _ _ hpos
    obtain ⟨hnd, hmem, _⟩ := swapRemove_mids p.transactionStore.transactions i hi hnodup
    exact ⟨hwf, hnd, fun t ht => hsub t (hmem t ht)⟩

theorem inv_removeByToken (p : Processor) (token : Codec.Token) (h : p.Inv) :
    Processor.Inv { p with transactionStore :=
      (p.transactionStore.removeByToken token).2 } := by
  obtain ⟨hwf, hnodup, hsub⟩ := h
  unfold TransactionStore.removeByToken
  cases hpos : position (fun t => t.token = token) p.transactionStore.transactions with
  | none => exact ⟨hwf, hnodup, hsub⟩
  | some i =>
    have hi := position_lt_length _ _ _ hpos
    obtain ⟨hnd, hmem, _⟩ := swapRemove_mids p.transactionStore.transactions i hi hnodup
    exact ⟨hwf, hnd, fun t ht => hsub t (hmem t ht)⟩

theorem inv_onTransactionRequested (p : Processor) (request : NewRequest)
    (token : Codec.Token) (h : p.Inv) :
    (p.onTransactionRequested request token).2.Inv := by
  obtain ⟨hwf, hnodup, hsub⟩ := h
  unfold Processor.onTransactionRequested
  by_cases h1 : p.transactionStore.existsByToken token
  · rw [if_pos h1]
    exact ⟨hwf, hnodup, hsub⟩
  rw [if_neg h1]
  by_cases h2 : p.atCapacity
  · rw [if_pos h2]
    exact ⟨hwf, hnodup, hsub⟩
  rw [if_neg h2]
  cases hnext : p.messageIdStore.next with
  | none =>
    exfalso
    apply h2
    unfold Processor.atCapacity MessageIdStore.atCapacity
    rw [hnext]
    simp
  | some c =>
    have hwf' : p.messageIdStore.claim.2.WF := MessageIdStore.wf_claim _ hwf
    have hcnot : c ∉ p.messageIdStore.claimed := hwf.2 c hnext
    rw [claimMessageId_eq p c hnext]
    refine ⟨?_, ?_, ?_⟩
    · rw [claim_eq_of_next p.messageIdStore c hnext] at hwf'
      exact hwf'
    · simp only [TransactionStore.add, List.map_append, List.map_cons, List.map_nil,
        Transaction.new_messageId]
      rw [List.nodup_append]
      refine ⟨hnodup, List.nodup_singleton c, ?_⟩
      intro a ha hb
      simp only [List.mem_singleton] at hb
      subst hb
      obtain ⟨t, ht, htm⟩ := List.mem_map.mp ha
      apply hcnot
      rw [← htm]
      exact hsub t ht
    · intro t ht
      have ht' : t ∈ p.transactionStore.transactions ++
          [Transaction.new c token request] := ht
      rcases List.mem_append.mp ht' with h3 | h3
      · exact List.mem_append.mpr (Or.inl (hsub t h3))
      · simp only [List.mem_singleton] at h3
        subst h3
        simp [Transaction.new_messageId]

theorem inv_dequeueRequest (p : Processor) (h : p.Inv) : p.dequeueRequest.2.Inv := by
  unfold Processor.dequeueRequest
  by_cases h1 : p.atCapacity
  · rw [if_pos h1]
    exact h
  rw [if_neg h1]
  cases hq : p.queued with
  | nil => exact h
  | cons rt rest =>
    obtain ⟨request, token⟩ := rt
    exact inv_onTransactionRequested { p with queued := rest } request token h

theorem inv_onRetransmission (p : Processor) (timeout : RetransmissionTimeout)
    (h : p.Inv) : (p.onRetransmission timeout).2.Inv := by
  unfold Processor.onRetransmission
  split
  · rename_i transaction hfind
    have hfound : (Transaction.confirmable transaction).messageId =
        timeout.messageId := by
      have h1 := List.find?_some
        (show List.find? _ p.transactionStore.transactions =
          some (Transaction.confirmable transaction) from
          by simpa [TransactionStore.findByMessageId] using hfind)
      simpa using h1
    split
    · rename_i effects transaction' hr
      have hmid' : transaction'.messageId = timeout.messageId := by
        have h2 := retransmit_messageId transaction timeout
        rw [hr] at h2
        rw [h2]
        simpa using hfound
      have hf : ∀ t : Transaction, t.messageId = timeout.messageId →
          ((fun _ => Transaction.confirmable transaction') t).messageId =
            t.messageId := by
        intro t ht
        show (Transaction.confirmable transaction').messageId = t.messageId
        rw [show (Transaction.confirmable transaction').messageId =
          transaction'.messageId from rfl, hmid']
        exact ht.symm
      exact inv_modifyFirst p timeout.messageId _ hf h
    · rename_i effects transaction' hr
      exact inv_removeByMessageId p timeout.messageId h
  · exact h

theorem inv_onMaxTransmitWait (p : Processor) (timeout : MaxTransmitWaitTimeout)
    (h : p.Inv) : (p.onMaxTransmitWait timeout).2.Inv := by
  unfold Processor.onMaxTransmitWait
  split
  · rename_i transaction hfind
    split
    · exact h
    · exact inv_removeByMessageId p timeout.messageId h
  · exact h

theorem dequeue_wrap_inv (effects : Effects) (q : Processor)
    (h : q.dequeueRequest.2.Inv) :
    (match q.dequeueRequest with
      | (Except.error e, p) => ((Except.error e : Except ProcessorError Effects), p)
      | (Except.ok dequeued, p) => (Except.ok (effects ++ dequeued), p)).2.Inv := by
  cases hdq : q.dequeueRequest with
  | mk r p2 =>
    rw [hdq] at h
    cases r with
    | error e => exact h
    | ok d => exact h

theorem inv_onLifetime (p : Processor) (m : Codec.MessageId) (h : p.Inv) :
    (p.onLifetime m).2.Inv := by
  have hinv1 : Processor.Inv { p with
      transactionStore := (p.transactionStore.removeByMessageId m).2
      messageIdStore := p.messageIdStore.release m } := by
    obtain ⟨hwf, hnodup, hsub⟩ := h
    have hrel := MessageIdStore.wf_release p.messageIdStore m hwf
    unfold TransactionStore.removeByMessageId
    cases hpos : position (fun t => t.messageId = m)
        p.transactionStore.transactions with
    | none =>
      have hno : ∀ t ∈ p.transactionStore.transactions, t.messageId ≠ m := by
        intro t ht
        have h1 := (position_eq_none_iff _ _).mp hpos t ht
        simpa using h1
      exact ⟨hrel, hnodup, fun t ht =>
        mem_release_claimed p.messageIdStore m t.messageId (hsub t ht) (hno t ht)⟩
    | some i =>
      have hi := position_lt_length _ _ _ hpos
      obtain ⟨hnd, hmem, hne⟩ :=
        swapRemove_mids p.transactionStore.transactions i hi hnodup
      obtain ⟨tm, htm, hptm⟩ := position_get _ _ _ hpos
      have htmm : tm.messageId = m := by simpa using hptm
      refine ⟨hrel, hnd, ?_⟩
      intro t ht
      have h1 : t ∈ swapRemove p.transactionStore.transactions i := ht
      refine mem_release_claimed p.messageIdStore m t.messageId
        (hsub t (hmem t h1)) ?_
      intro heq
      exact (hne t h1 tm htm) (heq.trans htmm.symm)
  have hres := inv_dequeueRequest _ hinv1
  unfold Processor.onLifetime
  split
  rename_i removed store heq
  have hstore : (p.transactionStore.removeByMessageId m).2 = store := by
    rw [heq]
  rw [hstore] at hres
  split
  · rename_i transaction
    exact dequeue_wrap_inv _ _ hres
  · exact dequeue_wrap_inv _ _ hres

theorem inv_onAcknowledgement (p : Processor) (a : Codec.Acknowledgement)
    (h : p.Inv) : (p.onAcknowledgement a).2.Inv := by
  unfold Processor.onAcknowledgement
  cases hfind : p.transactionStore.findByMessageId a.messageId with
  | none => exact h
  | some tx =>
    exact inv_dequeueRequest _ (inv_modifyFirst p a.messageId Transaction.acknowledged
      (fun t _ => acknowledged_messageId t) h)

theorem inv_onResponse (p : Processor) (response : Codec.Response) (h : p.Inv) :
    (p.onResponse response).2.Inv := by
  unfold Processor.onResponse
  cases hrm : p.transactionStore.removeByToken response.token with
  | mk removed store =>
    cases removed with
    | none => exact h
    | some tx =>
      have h2 := inv_removeByToken p response.token h
      have hstore : (p.transactionStore.removeByToken response.token).2 = store := by
        rw [hrm]
      rw [hstore] at h2
      exact h2

theorem inv_onReset (p : Processor) (rst : Codec.Reset) (h : p.Inv) :
    (p.onReset rst).2.Inv := by
  unfold Processor.onReset
  split
  rename_i removed store heq
  have hstore : (p.transactionStore.removeByMessageId rst.messageId).2 = store := by
    rw [heq]
  have h2 := inv_removeByMessageId p rst.messageId h
  rw [hstore] at h2
  split
  · exact h
  · rename_i transaction
    exact dequeue_wrap_inv _ _
      (inv_dequeueRequest { p with transactionStore := store } h2)

theorem inv_tick (p p' : Processor) (e : Event) (r : Except ProcessorError Effects)
    (h : p.Inv) (hstep : p.tick e = some (r, p')) : p'.Inv := by
  cases e with
  | transactionRequested request token =>
    have heq : p.onTransactionRequested request token = (r, p') := by
      simpa [Processor.tick] using hstep
    have h2 := inv_onTransactionRequested p request token h
    rw [heq] at h2
    exact h2
  | transactionCanceled token =>
    simp only [Processor.tick, Option.some.injEq, Prod.mk.injEq] at hstep
    rw [← hstep.2]
    exact h
  | timeoutReached timeout =>
    cases timeout with
    | nonLifetime t =>
      have heq : p.onLifetime t.messageId = (r, p') := by
        simpa [Processor.tick, Processor.onTimeoutReached] using hstep
      have h2 := inv_onLifetime p t.messageId h
      rw [heq] at h2
      exact h2
    | exchangeLifetime t =>
      have heq : p.onLifetime t.messageId = (r, p') := by
        simpa [Processor.tick, Processor.onTimeoutReached] using hstep
      have h2 := inv_onLifetime p t.messageId h
      rw [heq] at h2
      exact h2
    | retransmission t =>
      have heq : p.onRetransmission t = (r, p') := by
        simpa [Processor.tick, Processor.onTimeoutReached] using hstep
      have h2 := inv_onRetransmission p t h
      rw [heq] at h2
      exact h2
    | maxTransmitWait t =>
      have heq : p.onMaxTransmitWait t = (r, p') := by
        simpa [Processor.tick, Processor.onTimeoutReached] using hstep
      have h2 := inv_onMaxTransmitWait p t h
      rw [heq] at h2
      exact h2
    | nonRetransmission t =>
      simp [Processor.tick, Processor.onTimeoutReached] at hstep
  | dataReceived data =>
    have hdr : p.onDataReceived data = some (r, p') := by
      simpa [Processor.tick] using hstep
    unfold Processor.onDataReceived at hdr
    cases hdec : Codec.Message.decode data with
    | none =>
      rw [hdec] at hdr
      cases hdr
    | some res =>
      rw [hdec] at hdr
      cases res with
      | error e2 =>
        simp only [Option.some.injEq, Prod.mk.injEq] at hdr
        rw [← hdr.2]
        exact h
      | ok message =>
        cases message with
        | acknowledgement a =>
          have heq : p.onAcknowledgement a = (r, p') := by simpa using hdr
          have h2 := inv_onAcknowledgement p a h
          rw [heq] at h2
          exact h2
        | piggyback piggyback =>
          have heq : p.onPiggyback piggyback = (r, p') := by simpa using hdr
          have h2 := inv_onResponse p (piggybackToResponse piggyback) h
          rw [show p.onPiggyback piggyback = p.onResponse (piggybackToResponse piggyback)
            from rfl] at heq
          rw [heq] at h2
          exact h2
        | request req =>
          simp only [Option.some.injEq, Prod.mk.injEq] at hdr
          rw [← hdr.2]
          exact h
        | reset rst =>
          have heq : p.onReset rst = (r, p') := by simpa using hdr
          have h2 := inv_onReset p rst h
          rw [heq] at h2
          exact h2
        | response resp =>
          have heq : p.onResponse resp = (r, p') := by simpa using hdr
          have h2 := inv_onResponse p resp h
          rw [heq] at h2
          exact h2
        | reserved rsv =>
          simp only [Option.some.injEq, Prod.mk.injEq] at hdr
          rw [← hdr.2]
          exact h

theorem reach_inv {init : Codec.MessageId} {p : Processor}
    (h : Processor.Reach init p) : p.Inv := by
  induction h with
  | base =>
    exact ⟨⟨List.nodup_nil, fun n _ hmem => (List.not_mem_nil n) hmem⟩,
      List.nodup_nil, fun t ht => absurd ht (List.not_mem_nil t)⟩
  | step _ hstep ih => exact inv_tick _ _ _ _ ih hstep

/-- C2 amended: at every reachable processor state the number of live
transactions is at most the number of claimed message ids (each live
transaction holds a distinct claimed id); the original equality fails
because an id stays claimed until its exchange-lifetime timer fires,
after the transaction itself is gone. -/
theorem c2_claimed_ids_bound (init : Codec.MessageId) (p : Processor)
    (h : Processor.Reach init p) :
    p.transactionStore.count ≤ p.messageIdStore.claimed.length := by
  obtain ⟨hwf, hnodup, hsub⟩ := reach_inv h
  have hsubset : (p.transactionStore.transactions.map Transaction.messageId) ⊆
      p.messageIdStore.claimed := by
    intro x hx
    obtain ⟨t, ht, rfl⟩ := List.mem_map.mp hx
    exact hsub t ht
  have hsp := List.subperm_of_subset hnodup hsubset
  have hlen := hsp.length_le
  simpa [TransactionStore.count] using hlen

/-- C2 amended, witness: the bound observed on the post-reset state
(zero live transactions, one still-claimed id). -/
theorem c2_claimed_ids_bound_witness :
    procAfterReset.transactionStore.count ≤
      procAfterReset.messageIdStore.claimed.length :=
  c2_claimed_ids_bound ⟨0⟩ procAfterReset reach_procAfterReset

theorem claim_snd_of_next (s : MessageIdStore) (c : Codec.MessageId)
    (h : s.next = some c) :
    s.claim.2 = { claimed := s.claimed ++ [c]
                  next := if s.isClaimed c.next then none else some c.next } := by
  rw [claim_eq_of_next s c h]

theorem isClaimed_mk (L : List Codec.MessageId) (o : Option Codec.MessageId)
    (m : Codec.MessageId) :
    (⟨L, o⟩ : MessageIdStore).isClaimed m = true ↔ m ∈ L :=
  isClaimed_iff ⟨L, o⟩ m

theorem mem_residues (v n j : Nat) :
    ((⟨j⟩ : Codec.MessageId) ∈
      (List.range n).map fun i => (⟨(v + i) % 65536⟩ : Codec.MessageId)) ↔
      ∃ i, i < n ∧ (v + i) % 65536 = j := by
  simp [List.mem_map, List.mem_range, Codec.MessageId.mk.injEq]

theorem claimN_spec (v : Nat) (hv : v < 65536) :
    ∀ k, k ≤ 65536 →
      (MessageIdStore.new ⟨v⟩).claimN k =
        ⟨(List.range k).map fun i => (⟨(v + i) % 65536⟩ : Codec.MessageId),
          if k < 65536 then some ⟨(v + k) % 65536⟩ else none⟩ := by
  intro k
  induction k with
  | zero =>
    intro _
    rw [if_pos (by omega)]
    show MessageIdStore.new ⟨v⟩ = _
    unfold MessageIdStore.new
    have hv0 : (v + 0) % 65536 = v := by omega
    rw [hv0]
    rfl
  | succ k ih =>
    intro hk1
    have hklt : k < 65536 := by omega
    have hspec := ih (by omega)
    show ((MessageIdStore.new ⟨v⟩).claimN k).claim.2 = _
    rw [hspec, if_pos hklt]
    rw [claim_snd_of_next _ ⟨(v + k) % 65536⟩ rfl]
    have hnx : (⟨(v + k) % 65536⟩ : Codec.MessageId).next =
        ⟨(v + (k + 1)) % 65536⟩ := by
      unfold Codec.MessageId.next
      congr 1
      show ((v + k) % 65536 + 1) % 65536 = (v + (k + 1)) % 65536
      omega
    rw [hnx]
    simp only [MessageIdStore.mk.injEq]
    refine ⟨?_, ?_⟩
    · rw [List.range_succ, List.map_append]
      rfl
    · by_cases h2 : k + 1 < 65536
      · have hnc : (⟨(List.range k).map
            fun i => (⟨(v + i) % 65536⟩ : Codec.MessageId),
            some ⟨(v + k) % 65536⟩⟩ : MessageIdStore).isClaimed
              ⟨(v + (k + 1)) % 65536⟩ = false := by
          rw [← Bool.not_eq_true, isClaimed_mk, mem_residues]
          rintro ⟨i, hi, heq⟩
          omega
        rw [if_neg (by rw [hnc]; exact Bool.false_ne_true), if_pos h2]
      · have hc : (⟨(List.range k).map
            fun i => (⟨(v + i) % 65536⟩ : Codec.MessageId),
            some ⟨(v + k) % 65536⟩⟩ : MessageIdStore).isClaimed
              ⟨(v + (k + 1)) % 65536⟩ = true := by
          rw [isClaimed_mk, mem_residues]
          exact ⟨0, by omega, by omega⟩
        rw [if_pos hc, if_neg h2]

theorem claimN_ge (v : Nat) (hv : v < 65536) :
    ∀ k, 65536 ≤ k →
      (MessageIdStore.new ⟨v⟩).claimN k = (MessageIdStore.new ⟨v⟩).claimN 65536 := by
  intro k
  induction k with
  | zero =>
    intro h
    omega
  | succ k ih =>
    intro hk
    rcases Nat.lt_or_ge k 65536 with h1 | h1
    · have h2 : k + 1 = 65536 := by omega
      rw [h2]
    · show ((MessageIdStore.new ⟨v⟩).claimN k).claim.2 = _
      rw [ih h1]
      rw [claimN_spec v hv 65536 le_rfl]
      rw [if_neg (by omega)]
      rfl

theorem reach_claimN (init : Codec.MessageId) (k : Nat) :
    MessageIdStore.Reach init ((MessageIdStore.new init).claimN k) := by
  induction k with
  | zero => exact .base
  | succ k ih => exact .claim ih

theorem claimReach_claimN (init : Codec.MessageId) (k : Nat) :
    MessageIdStore.ClaimReach init ((MessageIdStore.new init).claimN k) := by
  induction k with
  | zero => exact .base
  | succ k ih => exact .claim ih

theorem claimReach_eq_claimN (init : Codec.MessageId) (s : MessageIdStore)
    (h : MessageIdStore.ClaimReach init s) :
    ∃ k, s = (MessageIdStore.new init).claimN k := by
  induction h with
  | base => exact ⟨0, rfl⟩
  | claim _ ih =>
    obtain ⟨k, rfl⟩ := ih
    exact ⟨k + 1, rfl⟩

theorem range_map_mod (n : Nat) (hn : n ≤ 65536) :
    ((List.range n).map fun i => (⟨(0 + i) % 65536⟩ : Codec.MessageId)) =
      (List.range n).map fun i => (⟨i⟩ : Codec.MessageId) := by
  apply List.map_congr_left
  intro i hi
  rw [List.mem_range] at hi
  congr 1
  omega

theorem position_mk_range' (j : Nat) :
    ∀ n s, s ≤ j → j < s + n →
      position (fun m => m = (⟨j⟩ : Codec.MessageId))
        ((List.range' s n).map fun i => (⟨i⟩ : Codec.MessageId)) = some (j - s) := by
  intro n
  induction n with
  | zero =>
    intro s h1 h2
    omega
  | succ n ih =>
    intro s h1 h2
    rw [List.range'_succ, List.map_cons]
    by_cases hsj : s = j
    · subst hsj
      simp [position]
    · simp only [position]
      rw [if_neg (by simp [Codec.MessageId.mk.injEq, hsj])]
      rw [ih (s + 1) (by omega) (by omega)]
      simp only [Option.map_some']
      congr 1
      omega

theorem position_mk_range (n j : Nat) (hj : j < n) :
    position (fun m => m = (⟨j⟩ : Codec.MessageId))
      ((List.range n).map fun i => (⟨i⟩ : Codec.MessageId)) = some j := by
  have h := position_mk_range' j n 0 (by omega) (by omega)
  rw [List.range_eq_range']
  simpa using h

theorem swapRemove_last_range (n : Nat) :
    swapRemove ((List.range (n + 1)).map fun i => (⟨i⟩ : Codec.MessageId)) n =
      (List.range n).map fun i => (⟨i⟩ : Codec.MessageId) := by
  unfold swapRemove
  rw [if_pos (by simp)]
  rw [List.range_succ, List.map_append]
  simp [List.dropLast_concat]

theorem set_append_length {α} (l₁ l₂ : List α) (a : α) :
    (l₁ ++ l₂).set l₁.length a = l₁ ++ l₂.set 0 a := by
  induction l₁ with
  | nil => simp
  | cons x xs ih =>
    show x :: (xs ++ l₂).set xs.length a = x :: (xs ++ l₂.set 0 a)
    rw [ih]

theorem swapRemove_penult (l₁ : List Codec.MessageId) (a b : Codec.MessageId) :
    swapRemove (l₁ ++ [a, b]) l₁.length = l₁ ++ [b] := by
  unfold swapRemove
  rw [if_neg (by simp only [List.length_append, List.length_cons, List.length_nil]; omega)]
  have hlast : (l₁ ++ [a, b]).getLast? = some b := by
    rw [show l₁ ++ [a, b] = (l₁ ++ [a]) ++ [b] by simp, List.getLast?_concat]
  rw [hlast]
  show ((l₁ ++ [a, b]).set l₁.length b).dropLast = l₁ ++ [b]
  rw [set_append_length]
  show (l₁ ++ [b, b]).dropLast = l₁ ++ [b]
  rw [show l₁ ++ [b, b] = (l₁ ++ [b]) ++ [b] by simp, List.dropLast_concat]

theorem release_mk_pos_none (L : List Codec.MessageId) (m : Codec.MessageId)
    (i : Nat) (hpos : position (fun x => x = m) L = some i) :
    (⟨L, none⟩ : MessageIdStore).release m = ⟨swapRemove L i, some m⟩ := by
  unfold MessageIdStore.release
  rw [show (⟨L, none⟩ : MessageIdStore).claimed = L from rfl, hpos]
  rfl

theorem release_mk_pos_some (L : List Codec.MessageId) (m c : Codec.MessageId)
    (i : Nat) (hpos : position (fun x => x = m) L = some i) :
    (⟨L, some c⟩ : MessageIdStore).release m = ⟨swapRemove L i, some c⟩ := by
  unfold MessageIdStore.release
  rw [show (⟨L, some c⟩ : MessageIdStore).claimed = L from rfl, hpos]
  rfl

theorem claim_mk (L : List Codec.MessageId) (c : Codec.MessageId) :
    (⟨L, some c⟩ : MessageIdStore).claim.2 =
      ⟨L ++ [c],
        if (⟨L, some c⟩ : MessageIdStore).isClaimed c.next then none
        else some c.next⟩ := by
  rw [claim_snd_of_next ⟨L, some c⟩ c rfl]

theorem release_s1 :
    (⟨(List.range 65536).map fun i => (⟨i⟩ : Codec.MessageId), none⟩ :
        MessageIdStore).release ⟨65535⟩ =
      ⟨(List.range 65535).map fun i => (⟨i⟩ : Codec.MessageId), some ⟨65535⟩⟩ := by
  rw [release_mk_pos_none ((List.range 65536).map fun i => (⟨i⟩ : Codec.MessageId))
    ⟨65535⟩ 65535 (position_mk_range 65536 65535 (by omega))]
  have hsw := swapRemove_last_range 65535
  norm_num at hsw
  rw [hsw]

theorem release_s2 :
    (⟨(List.range 65535).map fun i => (⟨i⟩ : Codec.MessageId), some ⟨65535⟩⟩ :
        MessageIdStore).release ⟨65533⟩ =
      ⟨((List.range 65533).map fun i => (⟨i⟩ : Codec.MessageId)) ++ [⟨65534⟩],
        some ⟨65535⟩⟩ := by
  have h1 := List.range_succ 65534
  have h2 := List.range_succ 65533
  norm_num at h1 h2
  have hdec : ((List.range 65535).map fun i => (⟨i⟩ : Codec.MessageId)) =
      ((List.range 65533).map fun i => (⟨i⟩ : Codec.MessageId)) ++
        [⟨65533⟩, ⟨65534⟩] := by
    rw [h1, h2]
    simp
  rw [release_mk_pos_some ((List.range 65535).map fun i => (⟨i⟩ : Codec.MessageId))
    ⟨65533⟩ ⟨65535⟩ 65533 (position_mk_range 65535 65533 (by omega))]
  rw [hdec]
  have hsw := swapRemove_penult
    ((List.range 65533).map fun i => (⟨i⟩ : Codec.MessageId)) ⟨65533⟩ ⟨65534⟩
  rw [show ((List.range 65533).map
    fun i => (⟨i⟩ : Codec.MessageId)).length = 65533 by simp] at hsw
  rw [hsw]

theorem claim_s3 :
    (⟨((List.range 65533).map fun i => (⟨i⟩ : Codec.MessageId)) ++ [⟨65534⟩],
        some ⟨65535⟩⟩ : MessageIdStore).claim.2 = c6Store := by
  rw [claim_mk]
  have hnext : (⟨65535⟩ : Codec.MessageId).next = ⟨0⟩ := rfl
  rw [hnext]
  have hcl : (⟨((List.range 65533).map fun i => (⟨i⟩ : Codec.MessageId)) ++
      [⟨65534⟩], some ⟨65535⟩⟩ : MessageIdStore).isClaimed ⟨0⟩ = true := by
    rw [isClaimed_mk]
    refine List.mem_append.mpr (Or.inl ?_)
    exact List.mem_map.mpr ⟨0, List.mem_range.mpr (by omega), rfl⟩
  rw [if_pos hcl]
  simp only [c6Store]
  rw [List.append_assoc]
  rfl

theorem reach_c6Store : MessageIdStore.Reach ⟨0⟩ c6Store := by
  have h1 : MessageIdStore.Reach ⟨0⟩ ((MessageIdStore.new ⟨0⟩).claimN 65536) :=
    reach_claimN ⟨0⟩ 65536
  rw [claimN_spec 0 (by omega) 65536 le_rfl] at h1
  rw [if_neg (by omega)] at h1
  rw [range_map_mod 65536 le_rfl] at h1
  have h2 := MessageIdStore.Reach.release ⟨65535⟩ h1
  rw [release_s1] at h2
  have h3 := MessageIdStore.Reach.release ⟨65533⟩ h2
  rw [release_s2] at h3
  have h4 := MessageIdStore.Reach.claim h3
  rw [claim_s3] at h4
  exact h4

/-- C6 counterexample: the claim says `at_capacity()` is true only
when all 65536 message ids are claimed.  The store below is reachable
from `new(0)` by claims and releases (claim the whole space, release
65535 and 65533, then claim once more): `at_capacity()` is true, yet
message id 65533 is unclaimed — the final `claim()` finds its advanced
candidate already claimed and drops `next` entirely, even though a
hole remains. -/
theorem c6_at_capacity_without_full_space :
    MessageIdStore.Reach ⟨0⟩ c6Store ∧
    c6Store.atCapacity = true ∧
    c6Store.isClaimed ⟨65533⟩ = false ∧
    (65533 : Nat) < 65536 := by
  refine ⟨reach_c6Store, rfl, ?_, by omega⟩
  rw [← Bool.not_eq_true, isClaimed_mk]
  intro hmem
  rcases List.mem_append.mp hmem with h1 | h1
  · obtain ⟨i, hi, heq⟩ := List.mem_map.mp h1
    rw [List.mem_range] at hi
    have : i = 65533 := by
      have := congrArg Codec.MessageId.value heq
      simpa using this
    omega
  · rcases List.mem_cons.mp h1 with h2 | h2
    · exact absurd (congrArg Codec.MessageId.value h2) (by simp)
    · rcases List.mem_cons.mp h2 with h3 | h3
      · exact absurd (congrArg Codec.MessageId.value h3) (by simp)
      · exact absurd h3 (List.not_mem_nil _)

theorem c6_full (v : Nat) (hv : v < 65536) (j : Nat) (hj : j < 65536) :
    ((MessageIdStore.new ⟨v⟩).claimN 65536).isClaimed ⟨j⟩ = true := by
  rw [claimN_spec v hv 65536 le_rfl]
  rw [isClaimed_mk, mem_residues]
  by_cases hvj : v ≤ j
  · exact ⟨j - v, by omega, by omega⟩
  · exact ⟨j + 65536 - v, by omega, by omega⟩

/-- C6 amended: the claimed property does hold as long as the store is
driven by `claim()` calls only (no `release()`): starting from a
16-bit initial id, once `at_capacity()` reports true the store has
claimed every one of the 65536 message ids.  It is `release()`'s
interaction with the dropped `next` candidate that breaks the original
claim. -/
theorem c6_at_capacity_amended (init : Codec.MessageId) (s : MessageIdStore)
    (hinit : init.value < 65536) (h : MessageIdStore.ClaimReach init s)
    (hcap : s.atCapacity = true) :
    ∀ j, j < 65536 → s.isClaimed ⟨j⟩ = true := by
  obtain ⟨v⟩ := init
  obtain ⟨k, rfl⟩ := claimReach_eq_claimN ⟨v⟩ s h
  by_cases hk : k ≤ 65536
  · have hk65 : k = 65536 := by
      by_contra hne
      rw [claimN_spec v hinit k hk] at hcap
      rw [if_pos (by omega)] at hcap
      simp [MessageIdStore.atCapacity] at hcap
    subst hk65
    intro j hj
    exact c6_full v hinit j hj
  · rw [claimN_ge v hinit k (by omega)]
    intro j hj
    exact c6_full v hinit j hj

/-- C6 amended, witness: from `new(0)`, after exactly 65536 claims the
store is at capacity and (for instance) id 4660 is claimed. -/
theorem c6_at_capacity_amended_witness :
    ((⟨0⟩ : Codec.MessageId).value < 65536) ∧
    ((MessageIdStore.new ⟨0⟩).claimN 65536).atCapacity = true ∧
    ((MessageIdStore.new ⟨0⟩).claimN 65536).isClaimed ⟨4660⟩ = true := by
  have hcap : ((MessageIdStore.new ⟨0⟩).claimN 65536).atCapacity = true := by
    rw [claimN_spec 0 (by omega) 65536 le_rfl]
    rfl
  refine ⟨by decide, hcap, ?_⟩
  exact c6_at_capacity_amended ⟨0⟩ _ (by decide)
    (claimReach_claimN ⟨0⟩ 65536) hcap 4660 (by decide)

end Protocol

end Coapium
